import Mathlib

/-!
ColorLUT: the `.cube` parser and the compiled-LUT cache

A shallow embedding of `src/src/lut.cpp` / `src/src/lut.hpp`.

Modelling conventions

* A text file is the list of lines `std::getline` yields; a path that cannot be opened is `none`.
* `float` values are binary32 values: a rational of the form `m * 2 ^ e` that binary32 holds,
  an infinity, or NaN.  Every conversion from text and every arithmetic operation rounds its
  exact result to the nearest binary32 value, ties to even, and overflows as binary32 does.
  The sign of zero is not kept.
* `operator>>` for `float` follows `strtof` as libstdc++ uses it: a literal too large for
  binary32 sets the fail bit and stores the largest finite value, a literal too small is
  rounded without error.  `std::from_chars` reports `result_out_of_range` for a literal that
  overflows and for a non-zero literal that rounds to zero.
* `std::istringstream` is the list of characters still unread plus the fail bit (the eof bit is
  set exactly when nothing is left unread, so it needs no field of its own).  Extraction follows
  the classic "C" locale; hexadecimal floating literals are not read.
* `UINT32` values are naturals reduced modulo `2 ^ 32` where the code multiplies or adds.
* The Direct2D device is a parameter: a function that tells, from the calls made so far, whether
  the next call succeeds.  `throw std::runtime_error` is the outcome `threw`.
* `std::for_each(par_unseq, ...)` over the indices is run in index order.
-/

set_option autoImplicit false

namespace ColorLUTModel

/-! ## Floating-point values -/

/-- The power `2 ^ k` for an integer `k`. -/
def pow2 (k : Int) : ℚ := mkRat (2 ^ k.toNat) (2 ^ (-k).toNat)

/-- The number of binary digits of `n`, counted with at most `fuel` steps. -/
def bitLength : Nat → Nat → Nat
  | 0, _ => 0
  | fuel + 1, n => if n = 0 then 0 else bitLength fuel (n / 2) + 1

/-- The position of the leading binary digit of `n` (zero for `n = 0`). -/
def ilog2 (n : Nat) : Nat := bitLength n n - 1

/-- Is the rational a binary32 value?  These are the numbers `m * 2 ^ e` with `|m| < 2 ^ 24`
and `-149 ≤ e ≤ 104`.  In lowest terms: an integer below `2 ^ 128` whose digits under the
leading 24 are zero, or an odd numerator below `2 ^ 24` over `2 ^ k` with `k ≤ 149`. -/
def isBinary32 (q : ℚ) : Bool :=
  if q.den = 1 then
    decide (q.num.natAbs < 2 ^ 128) &&
      decide (q.num.natAbs % 2 ^ (ilog2 q.num.natAbs - 23) = 0)
  else
    decide (q.den = 2 ^ ilog2 q.den) && decide (ilog2 q.den ≤ 149) &&
      decide (q.num.natAbs < 2 ^ 24)

/-- The integer nearest to a non-negative rational, a tie going to the even one. -/
def roundHalfEven (t : ℚ) : Nat :=
  let f := t.num.natAbs / t.den
  let r := t.num.natAbs % t.den
  if 2 * r < t.den then f
  else if t.den < 2 * r then f + 1
  else if f % 2 = 0 then f else f + 1

/-- The integer `l` with `2 ^ l ≤ a < 2 ^ (l + 1)`, for a positive rational `a`. -/
def floorLog2 (a : ℚ) : Int :=
  let l : Int := (ilog2 a.num.natAbs : Int) - (ilog2 a.den : Int)
  if pow2 l ≤ a then l else l - 1

/-- The multiple of the binary32 quantum at `q` that is nearest to `q`, ties to even.  The
quantum is `2 ^ (l - 23)` for `2 ^ l ≤ |q| < 2 ^ (l + 1)`, and `2 ^ (-149)` below the normal
range. -/
def nearest (q : ℚ) : ℚ :=
  let a : ℚ := if q < 0 then -q else q
  let e : Int := max (floorLog2 a - 23) (-149)
  let r : ℚ := (roundHalfEven (a / pow2 e) : ℚ) * pow2 e
  if q < 0 then -r else r

/-- Rounding to binary32, to nearest and ties to even: a binary32 value is its own rounding,
any other number goes to the nearest multiple of its quantum, and `none` is overflow (the
nearest multiple is `2 ^ 128` or beyond). -/
def round32 (q : ℚ) : Option ℚ :=
  if isBinary32 q then some q
  else if isBinary32 (nearest q) then some (nearest q) else none

/-- The constant `FLT_MAX`, `(2 ^ 24 - 1) * 2 ^ 104`. -/
def fltMax : ℚ := 340282346638528859811704183484516925440

/-- A `float` value: a rational (a binary32 value wherever it comes from a conversion or an
operation), a signed infinity, or NaN. -/
inductive F32 where
  | fin (q : ℚ)
  | inf (neg : Bool)
  | nan
  deriving DecidableEq

namespace F32

/-- The `float` an exact result `q` of an operation becomes: rounded, or an infinity of the
sign of `q` on overflow. -/
def ofRat (q : ℚ) : F32 :=
  match round32 q with
  | some r => fin r
  | none => inf (decide (q < 0))

/-- Is the value one a `float` can hold?  An infinity, NaN, or a binary32 number. -/
def isCanon : F32 → Bool
  | fin q => isBinary32 q
  | _ => true

/-- Subtraction of `float`s (`operator-`). -/
def sub : F32 → F32 → F32
  | fin a, fin b => ofRat (a - b)
  | fin _, inf s => inf (!s)
  | inf s, fin _ => inf s
  | inf s, inf t => if s = t then nan else inf s
  | _, _ => nan

/-- Multiplication of `float`s (`operator*`). -/
def mul : F32 → F32 → F32
  | fin a, fin b => ofRat (a * b)
  | fin a, inf s => if a = 0 then nan else inf (xor s (decide (a < 0)))
  | inf s, fin b => if b = 0 then nan else inf (xor s (decide (b < 0)))
  | inf s, inf t => inf (xor s t)
  | _, _ => nan

/-- Division of `float`s (`operator/`); a zero divisor counts as positive zero. -/
def div : F32 → F32 → F32
  | fin a, fin b =>
      if b = 0 then (if a = 0 then nan else inf (decide (a < 0))) else ofRat (a / b)
  | fin _, inf _ => fin 0
  | inf s, fin b => inf (xor s (decide (b < 0)))
  | inf _, inf _ => nan
  | _, _ => nan

/-- The comparison `x < y` of `float`s; false as soon as one side is NaN. -/
def lt : F32 → F32 → Bool
  | fin a, fin b => decide (a < b)
  | fin _, inf s => !s
  | inf s, fin _ => s
  | inf s, inf t => s && !t
  | _, _ => false

end F32

/-! ## Characters, tokens and the string stream -/

abbrev Line := List Char

/-- The function `std::isspace` in the classic locale. -/
def isspace (c : Char) : Bool :=
  c == ' ' || c == '\t' || c == '\n' || c == Char.ofNat 11 || c == Char.ofNat 12 || c == '\r'

/-- The function `std::isdigit`. -/
def isdigit (c : Char) : Bool :=
  decide ('0'.toNat ≤ c.toNat) && decide (c.toNat ≤ '9'.toNat)

/-- Drop leading white space (what the stream sentry does). -/
def skipws : List Char → List Char
  | [] => []
  | c :: cs => if isspace c then skipws cs else c :: cs

/-- The longest prefix without white space, and what follows it. -/
def takeToken : List Char → List Char × List Char
  | [] => ([], [])
  | c :: cs =>
      if isspace c then ([], c :: cs)
      else ((c :: (takeToken cs).1), (takeToken cs).2)

/-- The longest prefix of decimal digits, and what follows it. -/
def takeDigits : List Char → List Char × List Char
  | [] => ([], [])
  | c :: cs =>
      if isdigit c then ((c :: (takeDigits cs).1), (takeDigits cs).2)
      else ([], c :: cs)

/-- The number a digit string denotes. -/
def digitsToNat (ds : List Char) : Nat :=
  ds.foldl (fun acc c => 10 * acc + (c.toNat - '0'.toNat)) 0

/-- A `std::istringstream`: the unread characters and the fail bit. -/
structure IStream where
  rest : List Char
  fail : Bool
  deriving DecidableEq

/-- The expression `iss >> token` for a `std::string` (the token starts out empty). -/
def readToken (s : IStream) : List Char × IStream :=
  if s.fail then ([], s)
  else
    match skipws s.rest with
    | [] => ([], { rest := [], fail := true })
    | c :: cs => ((takeToken (c :: cs)).1, { rest := (takeToken (c :: cs)).2, fail := false })

/-- Split an optional sign off; `true` means a minus sign. -/
def takeSign : List Char → Bool × List Char
  | '-' :: cs => (true, cs)
  | '+' :: cs => (false, cs)
  | cs => (false, cs)

/-- The expression `iss >> v` for a `UINT32`; `old` is the value `v` held before. -/
def readUInt32 (s : IStream) (old : Nat) : Nat × IStream :=
  if s.fail then (old, s)
  else
    match skipws s.rest with
    | [] => (old, { rest := [], fail := true })
    | c :: cs =>
        let sg := takeSign (c :: cs)
        let ds := takeDigits sg.2
        if ds.1.isEmpty then (0, { rest := sg.2, fail := true })
        else
          let m := digitsToNat ds.1
          if 4294967295 < m then (4294967295, { rest := ds.2, fail := true })
          else ((if sg.1 then (4294967296 - m) % 4294967296 else m), { rest := ds.2, fail := false })

/-- The value of the decimal literal with integer digits `ip`, fraction digits `fp` and
exponent `e`. -/
def decValue (neg : Bool) (ip fp : List Char) (e : Int) : ℚ :=
  let m : Int := digitsToNat (ip ++ fp)
  let k : Int := e - fp.length
  mkRat ((if neg then -m else m) * 10 ^ k.toNat) (10 ^ (-k).toNat)

/-- An exponent part `e[+-]digits` at the head of the input, when it is complete. -/
def takeExponent : List Char → Option (Int × List Char)
  | c :: cs =>
      if c == 'e' || c == 'E' then
        let sg := takeSign cs
        let ds := takeDigits sg.2
        if ds.1.isEmpty then none
        else some ((if sg.1 then -(digitsToNat ds.1 : Int) else digitsToNat ds.1), ds.2)
      else none
  | [] => none

/-- The mantissa `digits [. digits]` at the head of the input: integer digits, fraction digits
and the rest; `none` when it holds no digit at all. -/
def takeMantissa (cs : List Char) : Option (List Char × List Char × List Char) :=
  let ip := takeDigits cs
  match ip.2 with
  | '.' :: r =>
      let fp := takeDigits r
      if ip.1.isEmpty && fp.1.isEmpty then none else some (ip.1, fp.1, fp.2)
  | r => if ip.1.isEmpty then none else some (ip.1, [], r)

/-- What `operator>>` stores for a literal of exact value `q`, with `rest` left unread: the
rounded value, or on overflow the largest finite value of the sign of `q` with the fail bit
set. -/
def storeFloat (q : ℚ) (rest : List Char) : F32 × IStream :=
  match round32 q with
  | some r => (F32.fin r, { rest := rest, fail := false })
  | none => (F32.fin (if q < 0 then -fltMax else fltMax), { rest := rest, fail := true })

/-- The expression `iss >> v` for a `float`; `old` is the value `v` held before.  A failed
conversion stores zero, a stream that is already failed or exhausted leaves `v` alone. -/
def readFloat (s : IStream) (old : F32) : F32 × IStream :=
  if s.fail then (old, s)
  else
    match skipws s.rest with
    | [] => (old, { rest := [], fail := true })
    | c :: cs =>
        let sg := takeSign (c :: cs)
        match takeMantissa sg.2 with
        | none => (F32.fin 0, { rest := sg.2, fail := true })
        | some (ip, fp, r) =>
            match r with
            | x :: xs =>
                if x == 'e' || x == 'E' then
                  match takeExponent (x :: xs) with
                  | none => (F32.fin 0, { rest := xs, fail := true })
                  | some (e, r2) => storeFloat (decValue sg.1 ip fp e) r2
                else storeFloat (decValue sg.1 ip fp 0) (x :: xs)
            | [] => storeFloat (decValue sg.1 ip fp 0) []

/-- ASCII lower case of a character. -/
def lower (c : Char) : Char :=
  if 'A'.toNat ≤ c.toNat ∧ c.toNat ≤ 'Z'.toNat then Char.ofNat (c.toNat + 32) else c

/-- Does the input start with the word `w` (given in lower case), whatever the case? -/
def startsWithCI (w : List Char) (cs : List Char) : Bool :=
  (cs.take w.length).map lower == w

/-- The characters allowed between the parentheses of `nan(...)`. -/
def isNChar (c : Char) : Bool :=
  isdigit c || decide ('a'.toNat ≤ (lower c).toNat ∧ (lower c).toNat ≤ 'z'.toNat) || c == '_'

/-- Skip an optional `(n-char-sequence)` after `nan`. -/
def takeNanPayload : List Char → List Char
  | '(' :: cs =>
      match cs.dropWhile isNChar with
      | ')' :: r => r
      | _ => '(' :: cs
  | cs => cs

/-- What `std::from_chars` returns for a decimal literal of exact value `q` that ends where
`rest` starts: the rounded value, or `none` (`result_out_of_range`) when the literal overflows
or is not zero and rounds to zero. -/
def charsFloat (q : ℚ) (rest : List Char) : Option (F32 × List Char) :=
  match round32 q with
  | some r => if r = 0 ∧ q ≠ 0 then none else some (F32.fin r, rest)
  | none => none

/-- The call `std::from_chars(first, last, r)` for a `float` in the general format: `none` is an
error code other than `std::errc{}`, otherwise the value and the characters from `ptr` on. -/
def from_chars (tok : List Char) : Option (F32 × List Char) :=
  let sg : Bool × List Char :=
    match tok with
    | '-' :: cs => (true, cs)
    | cs => (false, cs)
  if startsWithCI "infinity".toList sg.2 then some (F32.inf sg.1, sg.2.drop 8)
  else if startsWithCI "inf".toList sg.2 then some (F32.inf sg.1, sg.2.drop 3)
  else if startsWithCI "nan".toList sg.2 then some (F32.nan, takeNanPayload (sg.2.drop 3))
  else
    match takeMantissa sg.2 with
    | none => none
    | some (ip, fp, r) =>
        match takeExponent r with
        | some (e, r2) => charsFloat (decValue sg.1 ip fp e) r2
        | none => charsFloat (decValue sg.1 ip fp 0) r

/-! ## `CubeLUT` -/

/-- The struct `CubeLUT::RGB`. -/
structure RGB where
  r : F32
  g : F32
  b : F32
  deriving DecidableEq

namespace RGB

/-- The member `RGB::operator-`. -/
def sub (u v : RGB) : RGB := ⟨F32.sub u.r v.r, F32.sub u.g v.g, F32.sub u.b v.b⟩

/-- The member `RGB::operator*`. -/
def mul (u v : RGB) : RGB := ⟨F32.mul u.r v.r, F32.mul u.g v.g, F32.mul u.b v.b⟩

/-- The member `RGB::operator/`. -/
def div (u v : RGB) : RGB := ⟨F32.div u.r v.r, F32.div u.g v.g, F32.div u.b v.b⟩

end RGB

/-- The struct `CubeLUT`. -/
structure CubeLUT where
  dimension : Int
  domain_min : RGB
  domain_max : RGB
  scale : RGB
  size : Nat
  capacity : Nat
  data : List RGB
  deriving DecidableEq

/-- A value-initialised `CubeLUT cube{}`. -/
def CubeLUT.fresh : CubeLUT :=
  { dimension := 0
    domain_min := ⟨F32.fin 0, F32.fin 0, F32.fin 0⟩
    domain_max := ⟨F32.fin 1, F32.fin 1, F32.fin 1⟩
    scale := ⟨F32.fin 1, F32.fin 1, F32.fin 1⟩
    size := 0
    capacity := 0
    data := [] }

/-- The constant `eps = 1.0e-4f` of `CubeLUT::load`: the binary32 value nearest to `1e-4`,
`13743895 * 2 ^ (-37)`. -/
def eps : F32 := F32.fin (13743895 / 137438953472)

/-- The test `line.empty() || line[0] == '#'` that both loops start with. -/
def skipLine (line : Line) : Bool :=
  match line with
  | [] => true
  | c :: _ => c == '#'

/-- How the first loop of `CubeLUT::load` ends: by `return false` or by leaving the loop. -/
inductive Pass1 where
  | rejected (c : CubeLUT)
  | done (c : CubeLUT)
  deriving DecidableEq

/-- The first `while (std::getline(file, line))` loop of `CubeLUT::load`. -/
def firstPass (c : CubeLUT) : List Line → Pass1
  | [] => Pass1.done c
  | line :: rest =>
      if skipLine line then firstPass c rest
      else
        let t := readToken { rest := line, fail := false }
        if t.1 = "LUT_1D_SIZE".toList then
          let sz := (readUInt32 t.2 c.size).1
          if sz < 2 ∨ 65536 < sz then Pass1.rejected { c with dimension := 1, size := sz }
          else Pass1.done { c with dimension := 1, size := sz, capacity := sz }
        else if t.1 = "LUT_3D_SIZE".toList then
          let sz := (readUInt32 t.2 c.size).1
          if sz < 2 ∨ 256 < sz then Pass1.rejected { c with dimension := 3, size := sz }
          else
            Pass1.done { c with dimension := 3, size := sz, capacity := (sz * sz * sz) % 4294967296 }
        else firstPass c rest

/-- The statement `iss >> v.r >> v.g >> v.b`. -/
def readRGB (s : IStream) (old : RGB) : RGB :=
  let r := readFloat s old.r
  let g := readFloat r.2 old.g
  let b := readFloat g.2 old.b
  ⟨r.1, g.1, b.1⟩

/-- The `else` branch of the second loop: the sample a data row yields, if it yields one. -/
def parseRow (token : List Char) (iss : IStream) : Option RGB :=
  match from_chars token with
  | some (r, ptr) =>
      let g := readFloat iss (F32.fin 0)
      let b := readFloat g.2 (F32.fin 0)
      if ptr.isEmpty && !b.2.fail then some ⟨r, g.1, b.1⟩ else none
  | none => none

/-- One iteration of the second `while (std::getline(file, line))` loop of `CubeLUT::load`. -/
def secondPassStep (c : CubeLUT) (line : Line) : CubeLUT :=
  if skipLine line then c
  else
    let t := readToken { rest := line, fail := false }
    if t.1 = "DOMAIN_MIN".toList then { c with domain_min := readRGB t.2 c.domain_min }
    else if t.1 = "DOMAIN_MAX".toList then { c with domain_max := readRGB t.2 c.domain_max }
    else
      match parseRow t.1 t.2 with
      | some rgb => { c with data := c.data ++ [rgb] }
      | none => c

/-- The second loop of `CubeLUT::load`. -/
def secondPass (c : CubeLUT) (lines : List Line) : CubeLUT :=
  lines.foldl secondPassStep c

/-- The method `CubeLUT::load`: the returned flag and the object afterwards. -/
def CubeLUT.load (self : CubeLUT) (file : Option (List Line)) : Bool × CubeLUT :=
  match file with
  | none => (false, self)
  | some lines =>
      match firstPass { self with size := 0, capacity := 0, data := [] } lines with
      | Pass1.rejected c => (false, c)
      | Pass1.done c1 =>
          if c1.size = 0 then (false, c1)
          else
            let c2 := secondPass c1 lines
            if c2.data.length ≠ c2.capacity then (false, c2)
            else
              let range := RGB.sub c2.domain_max c2.domain_min
              if F32.lt range.r eps || F32.lt range.g eps || F32.lt range.b eps then (false, c2)
              else (true, { c2 with scale := RGB.div c2.scale range })

/-- A file given as string literals, one per line. -/
def fileOf (ls : List String) : Option (List Line) := some (ls.map String.toList)

/-- The samples the second loop of `CubeLUT::load` accepts from one line: none for a skipped
line and for a `DOMAIN_MIN` / `DOMAIN_MAX` line, otherwise what the `else` branch pushes. -/
def rowOfLine (line : Line) : Option RGB :=
  if skipLine line then none
  else
    let t := readToken { rest := line, fail := false }
    if t.1 = "DOMAIN_MIN".toList then none
    else if t.1 = "DOMAIN_MAX".toList then none
    else parseRow t.1 t.2

/-- The data rows of a file that the second loop accepts, in file order. -/
def acceptedRows (lines : List Line) : List RGB := lines.filterMap rowOfLine

/-- Is this line one the first loop takes a size from?  It is not skipped and its first token is
`LUT_1D_SIZE` or `LUT_3D_SIZE`. -/
def isSizeDirective (line : Line) : Bool :=
  !skipLine line &&
    (decide ((readToken { rest := line, fail := false }).1 = "LUT_1D_SIZE".toList) ||
      decide ((readToken { rest := line, fail := false }).1 = "LUT_3D_SIZE".toList))

/-- The size the first loop reads from a size directive line (`iss >> size` after the token,
with `size` zero before). -/
def directiveSize (line : Line) : Nat :=
  (readUInt32 (readToken { rest := line, fail := false }).2 0).1

/-! ## `ColorLUT` -/

/-- The struct `ColorLUT::RGBA`. -/
structure RGBA where
  r : F32
  g : F32
  b : F32
  a : F32
  deriving DecidableEq

/-- The calls into Direct2D that `ColorLUT::load` and `ColorLUT::create_effect` make and check
with `FAILED`. -/
inductive BackendCall where
  | createTableTransfer
  | setRedTable
  | setGreenTable
  | setBlueTable
  | createLookupTable3D
  | createLookupTable3DEffect
  | setLookupTable
  | setCrossFadeWeight
  | copyCrossFade
  deriving DecidableEq

/-- What `CreateLookupTable3D` is given: extents, data, data size in bytes, strides. -/
structure LookupTable3D where
  extents : List Nat
  data : List RGBA
  dataSize : Nat
  strides : List Nat
  deriving DecidableEq

/-- A table handed to `SetValue`: the floats and the byte count. -/
structure Table where
  values : List F32
  byteSize : Nat
  deriving DecidableEq

/-- An `ID2D1Effect` as far as `ColorLUT::load` configures it. -/
inductive Effect where
  | tableTransfer (red green blue : Option Table)
  | lookupTable3D (lut : Option LookupTable3D)
  deriving DecidableEq

/-- The struct `ColorLUT::LUT`; a null `ComPtr` is `none`. -/
structure LUT where
  dimension : Int
  _1d : Option Effect
  _3d : Option Effect
  deriving DecidableEq

/-- What happened during the calls, oldest first: a run of `CubeLUT::load` on a path, or a
call into Direct2D. -/
inductive Event where
  | parse (path : String)
  | backend (call : BackendCall)
  deriving DecidableEq

/-- The part of a `ColorLUT` object that `load` and `reload` touch: the cache, and the
record of parser runs and Direct2D calls made so far. -/
structure ColorLUT where
  cache : List (String × LUT)
  trace : List Event
  deriving DecidableEq

/-- The surroundings of a `ColorLUT`: the files on disk and the Direct2D device, which
decides from the events so far whether the next call succeeds. -/
structure Env where
  fs : String → Option (List Line)
  backend : List Event → BackendCall → Bool

/-- How a call ends: `return b`, or `throw std::runtime_error(msg)`. -/
inductive Outcome where
  | ret (b : Bool)
  | threw (msg : String)
  deriving DecidableEq

/-- The result of `ColorLUT::load`: how it ended, the object afterwards, and the
out-parameter `lut`. -/
structure LoadResult where
  outcome : Outcome
  self : ColorLUT
  lut : LUT
  deriving DecidableEq

/-- The lookup `cache.find(path)`. -/
def cacheFind (cache : List (String × LUT)) (path : String) : Option LUT :=
  match cache with
  | [] => none
  | (k, v) :: rest => if k = path then some v else cacheFind rest path

/-- The call `cache.emplace(path, lut)`: nothing is stored when the key is present. -/
def cacheEmplace (cache : List (String × LUT)) (path : String) (lut : LUT) :
    List (String × LUT) :=
  match cacheFind cache path with
  | some _ => cache
  | none => cache ++ [(path, lut)]

/-- The call `cache.erase(path)`. -/
def cacheErase (cache : List (String × LUT)) (path : String) : List (String × LUT) :=
  match cache with
  | [] => []
  | (k, v) :: rest => if k = path then cacheErase rest path else (k, v) :: cacheErase rest path

/-- One checked call into Direct2D: whether it succeeded, and the object with the call
recorded. -/
def ColorLUT.call (env : Env) (self : ColorLUT) (c : BackendCall) : Bool × ColorLUT :=
  (env.backend self.trace c, { self with trace := self.trace ++ [Event.backend c] })

/-- The expression `(cube.data[i] - cube.domain_min) * cube.scale` of both lambdas. -/
def normalized (cube : CubeLUT) (i : Nat) : RGB :=
  RGB.mul (RGB.sub (cube.data.getD i ⟨F32.fin 0, F32.fin 0, F32.fin 0⟩) cube.domain_min) cube.scale

/-- The three vectors `r`, `g`, `b` of `case 1`. -/
structure Tables where
  r : List F32
  g : List F32
  b : List F32
  deriving DecidableEq

/-- The lambda of `case 1`, run at index `i`. -/
def body1D (cube : CubeLUT) (t : Tables) (i : Nat) : Tables :=
  { r := t.r.set i (normalized cube i).r
    g := t.g.set i (normalized cube i).g
    b := t.b.set i (normalized cube i).b }

/-- The vectors of `case 1` after `resize` and the `for_each` over `iota(0u, capacity)`. -/
def tables1D (cube : CubeLUT) : Tables :=
  (List.range cube.capacity).foldl (body1D cube)
    { r := List.replicate cube.capacity (F32.fin 0)
      g := List.replicate cube.capacity (F32.fin 0)
      b := List.replicate cube.capacity (F32.fin 0) }

/-- The index `x + y * w + z * h` of the lambda of `case 3`, in `UINT32` arithmetic. -/
def destIndex (w h i : Nat) : Nat :=
  let z := i % w
  let y := (i / w) % w
  let x := i / h
  (x + y * w + z * h) % 4294967296

/-- The lambda of `case 3`, run at index `i`. -/
def body3D (cube : CubeLUT) (w h : Nat) (data : List RGBA) (i : Nat) : List RGBA :=
  data.set (destIndex w h i)
    ⟨(normalized cube i).r, (normalized cube i).g, (normalized cube i).b, F32.fin 1⟩

/-- The vector `data` of `case 3` after `resize` and the `for_each` over `iota(0u, capacity)`. -/
def buffer3D (cube : CubeLUT) : List RGBA :=
  (List.range cube.capacity).foldl (body3D cube cube.size ((cube.size * cube.size) % 4294967296))
    (List.replicate cube.capacity ⟨F32.fin 0, F32.fin 0, F32.fin 0, F32.fin 0⟩)

/-- The branch `case 1` of `ColorLUT::load`, up to its `break`. -/
def load1D (env : Env) (self : ColorLUT) (lut : LUT) (cube : CubeLUT) :
    Outcome × ColorLUT × LUT :=
  let size := (cube.capacity * 4) % 4294967296
  let t := tables1D cube
  let c1 := self.call env BackendCall.createTableTransfer
  if !c1.1 then
    (Outcome.threw "ID2D1DeviceContext::CreateEffect (TableTransfer) failed", c1.2,
      { lut with dimension := 1, _1d := none })
  else
    let c2 := c1.2.call env BackendCall.setRedTable
    if !c2.1 then
      (Outcome.threw "ID2D1Properties::SetValue (TABLETRANSFER_PROP_RED_TABLE) failed", c2.2,
        { lut with dimension := 1, _1d := some (Effect.tableTransfer none none none) })
    else
      let c3 := c2.2.call env BackendCall.setGreenTable
      if !c3.1 then
        (Outcome.threw "ID2D1Properties::SetValue (TABLETRANSFER_PROP_GREEN_TABLE) failed", c3.2,
          { lut with
            dimension := 1
            _1d := some (Effect.tableTransfer (some ⟨t.r, size⟩) none none) })
      else
        let c4 := c3.2.call env BackendCall.setBlueTable
        if !c4.1 then
          (Outcome.threw "ID2D1Properties::SetValue (TABLETRANSFER_PROP_BLUE_TABLE) failed", c4.2,
            { lut with
              dimension := 1
              _1d := some (Effect.tableTransfer (some ⟨t.r, size⟩) (some ⟨t.g, size⟩) none) })
        else
          (Outcome.ret true, c4.2,
            { lut with
              dimension := 1
              _1d := some
                (Effect.tableTransfer (some ⟨t.r, size⟩) (some ⟨t.g, size⟩) (some ⟨t.b, size⟩)) })

/-- The table `CreateLookupTable3D` is called with in `case 3`. -/
def lookupTableOf (cube : CubeLUT) : LookupTable3D :=
  { extents := [cube.size, cube.size, cube.size]
    data := buffer3D cube
    dataSize := (cube.capacity * 16) % 4294967296
    strides := [(cube.size * 16) % 4294967296,
      (((cube.size * cube.size) % 4294967296) * 16) % 4294967296] }

/-- The branch `case 3` of `ColorLUT::load`, up to its `break`. -/
def load3D (env : Env) (self : ColorLUT) (lut : LUT) (cube : CubeLUT) :
    Outcome × ColorLUT × LUT :=
  let c1 := self.call env BackendCall.createLookupTable3D
  if !c1.1 then (Outcome.threw "ID2D1DeviceContext2::CreateLookupTable3D failed", c1.2, lut)
  else
    let c2 := c1.2.call env BackendCall.createLookupTable3DEffect
    if !c2.1 then
      (Outcome.threw "ID2D1DeviceContext::CreateEffect (LookupTable3D) failed", c2.2,
        { lut with dimension := 3, _3d := none })
    else
      let c3 := c2.2.call env BackendCall.setLookupTable
      if !c3.1 then
        (Outcome.threw "ID2D1Properties::SetValue (LOOKUPTABLE3D_PROP_LUT) failed", c3.2,
          { lut with dimension := 3, _3d := some (Effect.lookupTable3D none) })
      else
        (Outcome.ret true, c3.2,
          { lut with dimension := 3, _3d := some (Effect.lookupTable3D (some (lookupTableOf cube))) })

/-- After the `switch`: `cache.emplace(path, lut); return true;` when the branch reached its
`break`, otherwise the exception goes on. -/
def finishLoad (path : String) (r : Outcome × ColorLUT × LUT) : LoadResult :=
  match r.1 with
  | Outcome.ret true =>
      { outcome := Outcome.ret true
        self := { r.2.1 with cache := cacheEmplace r.2.1.cache path r.2.2 }
        lut := r.2.2 }
  | o => { outcome := o, self := r.2.1, lut := r.2.2 }

/-- The method `ColorLUT::load(path, lut)`. -/
def ColorLUT.load (env : Env) (self : ColorLUT) (path : String) (lut : LUT) : LoadResult :=
  match cacheFind self.cache path with
  | some hit => { outcome := Outcome.ret true, self := self, lut := hit }
  | none =>
      let cube := CubeLUT.load CubeLUT.fresh (env.fs path)
      let s1 : ColorLUT := { self with trace := self.trace ++ [Event.parse path] }
      if !cube.1 then { outcome := Outcome.ret false, self := s1, lut := lut }
      else if cube.2.dimension = 1 then finishLoad path (load1D env s1 lut cube.2)
      else if cube.2.dimension = 3 then finishLoad path (load3D env s1 lut cube.2)
      else { outcome := Outcome.ret false, self := s1, lut := lut }

/-- The method `ColorLUT::reload()`. -/
def ColorLUT.reloadAll (self : ColorLUT) : ColorLUT :=
  { self with cache := [] }

/-- The method `ColorLUT::reload(path)`. -/
def ColorLUT.reload (self : ColorLUT) (path : String) : ColorLUT :=
  { self with cache := cacheErase self.cache path }

/-- How often `CubeLUT::load` has run on `path` according to a trace. -/
def parseCount (path : String) (trace : List Event) : Nat :=
  trace.count (Event.parse path)

/-- The object after `n` calls of `ColorLUT::load(path, lut)` in a row, whatever each returns
(an exception is caught by the caller). -/
def loadTimes (env : Env) (path : String) (lut : LUT) : Nat → ColorLUT → ColorLUT
  | 0, s => s
  | n + 1, s => loadTimes env path lut n (ColorLUT.load env s path lut).self

/-- Do the Direct2D calls `calls`, made one after the other from the trace `trace` on, all
succeed? -/
def backendAllOk (env : Env) : List Event → List BackendCall → Bool
  | _, [] => true
  | trace, c :: cs => env.backend trace c && backendAllOk env (trace ++ [Event.backend c]) cs

/-- A value-initialised `LUT lut{}`. -/
def LUT.empty : LUT := { dimension := 0, _1d := none, _3d := none }

/-- A `ColorLUT` with an empty cache on which nothing has happened yet. -/
def ColorLUT.initial : ColorLUT := { cache := [], trace := [] }

/-! ## `ColorLUT::create_effect` -/

/-- An `ID2D1Bitmap1` handle. -/
abbrev Bitmap := Nat

/-- The cross-fade effect as `create_effect` sets it up: input 0 is the LUT effect, whose own
input 0 is the bitmap; input 1 is the bitmap; the weight is `mix`. -/
structure CrossFade where
  input0 : Effect
  lutInput : Bitmap
  input1 : Bitmap
  weight : F32
  deriving DecidableEq

/-- How `create_effect` ends: `return b`, `throw std::runtime_error(msg)`, or a `->` through a
null `ComPtr`. -/
inductive CreateOutcome where
  | ret (b : Bool)
  | threw (msg : String)
  | nullDeref
  deriving DecidableEq

/-- The result of `ColorLUT::create_effect`: how it ended, the object afterwards, and the
out-parameter `effect`. -/
structure CreateResult where
  outcome : CreateOutcome
  self : ColorLUT
  effect : Option CrossFade
  deriving DecidableEq

/-- The part of `create_effect` after the `switch`: `SetInput(1, bmp)`, the weight, `CopyTo`. -/
def finishCreate (env : Env) (self : ColorLUT) (e : Effect) (mix : F32) (bmp : Bitmap) :
    CreateResult :=
  let c1 := self.call env BackendCall.setCrossFadeWeight
  if !c1.1 then
    { outcome := CreateOutcome.threw "ID2D1Properties::SetValue (CROSSFADE_PROP_WEIGHT) failed"
      self := c1.2
      effect := none }
  else
    let c2 := c1.2.call env BackendCall.copyCrossFade
    if !c2.1 then
      { outcome := CreateOutcome.threw "ComPtr<ID2D1Effect>::CopyTo failed"
        self := c2.2
        effect := none }
    else
      { outcome := CreateOutcome.ret true
        self := c2.2
        effect := some { input0 := e, lutInput := bmp, input1 := bmp, weight := mix } }

/-- The method `ColorLUT::create_effect(path, mix, bmp, effect)`, called after `setup` (the
device context and `cross_fade` are not null). -/
def ColorLUT.create_effect (env : Env) (self : ColorLUT) (path : String) (mix : F32)
    (bmp : Bitmap) : CreateResult :=
  let r := ColorLUT.load env self path LUT.empty
  match r.outcome with
  | Outcome.threw msg => { outcome := CreateOutcome.threw msg, self := r.self, effect := none }
  | Outcome.ret false => { outcome := CreateOutcome.ret false, self := r.self, effect := none }
  | Outcome.ret true =>
      if r.lut.dimension = 1 then
        match r.lut._1d with
        | none => { outcome := CreateOutcome.nullDeref, self := r.self, effect := none }
        | some e => finishCreate env r.self e mix bmp
      else if r.lut.dimension = 3 then
        match r.lut._3d with
        | none => { outcome := CreateOutcome.nullDeref, self := r.self, effect := none }
        | some e => finishCreate env r.self e mix bmp
      else { outcome := CreateOutcome.ret false, self := r.self, effect := none }

/-- Is this a `LUT` that one of the two branches of `ColorLUT::load` produces?  Its dimension
is 1 with `_1d` set, or 3 with `_3d` set. -/
def lutOk (l : LUT) : Bool :=
  (decide (l.dimension = 1) && l._1d.isSome) || (decide (l.dimension = 3) && l._3d.isSome)

/-- Does every entry of the cache satisfy `lutOk`? -/
def cacheOk (cache : List (String × LUT)) : Bool :=
  cache.all (fun kv => lutOk kv.2)

/-- The objects a `ColorLUT` can become: it starts with an empty cache, and `load`,
`create_effect`, `reload(path)` and `reload()` are the methods that touch the cache. -/
inductive Reachable (env : Env) : ColorLUT → Prop where
  | initial : Reachable env ColorLUT.initial
  | load (s : ColorLUT) (path : String) (lut : LUT) :
      Reachable env s → Reachable env (ColorLUT.load env s path lut).self
  | create_effect (s : ColorLUT) (path : String) (mix : F32) (bmp : Bitmap) :
      Reachable env s → Reachable env (ColorLUT.create_effect env s path mix bmp).self
  | reload (s : ColorLUT) (path : String) : Reachable env s → Reachable env (s.reload path)
  | reloadAll (s : ColorLUT) : Reachable env s → Reachable env s.reloadAll

/-- Is this a line that is blank or a comment for the format?  It holds nothing but white
space, or `#` is its first character after white space. -/
def isIgnorable (line : Line) : Bool :=
  match skipws line with
  | [] => true
  | c :: _ => c == '#'

/-- Is the value an ordinary number (neither an infinity nor NaN)? -/
def F32.isFin : F32 → Bool
  | F32.fin _ => true
  | _ => false

/-- Are all three channels ordinary numbers? -/
def RGB.isFin (v : RGB) : Bool := v.r.isFin && v.g.isFin && v.b.isFin

/-- Is this a line the second loop reads a domain bound from?  It is not skipped and its first
token is `DOMAIN_MIN` or `DOMAIN_MAX`. -/
def isDomainDirective (line : Line) : Bool :=
  !skipLine line &&
    (decide ((readToken { rest := line, fail := false }).1 = "DOMAIN_MIN".toList) ||
      decide ((readToken { rest := line, fail := false }).1 = "DOMAIN_MAX".toList))

/-- A 3D cube of size 2 whose sample at file index `i` has red value `i`. -/
def cube3DExample : List Line :=
  ["LUT_3D_SIZE 2", "0 0 0", "1 0 0", "2 0 0", "3 0 0", "4 0 0", "5 0 0", "6 0 0", "7 0 0"].map
    String.toList

/-- A disk where every path opens as an empty file (no size directive), with a device on which
every call succeeds. -/
def envEmptyFiles : Env :=
  { fs := fun _ => some []
    backend := fun _ _ => true }

/-- A disk that holds the 3D cube `cube3DExample` under every path, with a device on which
every call succeeds. -/
def envCube3D : Env :=
  { fs := fun _ => some cube3DExample
    backend := fun _ _ => true }

/-- A disk that holds the 3D cube `cube3DExample` under every path, with a device on which
every call fails. -/
def envCube3DNoDevice : Env :=
  { fs := fun _ => some cube3DExample
    backend := fun _ _ => false }

/-- A 1D table of size 2 over the domain `0 .. 2`. -/
def table1DExample : List Line :=
  ["LUT_1D_SIZE 2", "DOMAIN_MAX 2 2 2", "0 0 0", "2 1 0.5"].map String.toList

/-- A 1D table of size 2 without domain lines. -/
def table1DPlain : List Line :=
  ["LUT_1D_SIZE 2", "0 0 0", "1 1 1"].map String.toList

/-- A file with both size directives, `LUT_3D_SIZE` first. -/
def bothDirectives : List Line :=
  ["LUT_3D_SIZE 2", "LUT_1D_SIZE 4", "0 0 0", "1 0 0", "2 0 0", "3 0 0", "4 0 0", "5 0 0",
    "6 0 0", "7 0 0"].map String.toList

/-- A disk that holds the 1D table `table1DExample` under every path, with a device on which
every call succeeds. -/
def envTable1D : Env :=
  { fs := fun _ => some table1DExample
    backend := fun _ _ => true }

/-! ## Lemmas on the two loops of `CubeLUT::load` -/

theorem secondPassStep_size (c : CubeLUT) (line : Line) :
    (secondPassStep c line).size = c.size ∧ (secondPassStep c line).capacity = c.capacity ∧
      (secondPassStep c line).dimension = c.dimension ∧ (secondPassStep c line).scale = c.scale := by
  unfold secondPassStep
  split
  · simp
  · dsimp only
    split
    · simp
    · split
      · simp
      · split <;> simp

theorem secondPassStep_data (c : CubeLUT) (line : Line) :
    (secondPassStep c line).data = c.data ++ (rowOfLine line).toList := by
  unfold secondPassStep rowOfLine
  split
  · simp
  · dsimp only
    split
    · simp
    · split
      · simp
      · split <;> simp [*]

theorem secondPass_size (lines : List Line) (c : CubeLUT) :
    (secondPass c lines).size = c.size ∧ (secondPass c lines).capacity = c.capacity ∧
      (secondPass c lines).dimension = c.dimension ∧ (secondPass c lines).scale = c.scale := by
  induction lines generalizing c with
  | nil => simp [secondPass]
  | cons l ls ih =>
      have h1 := secondPassStep_size c l
      have h2 := ih (secondPassStep c l)
      simp only [secondPass, List.foldl_cons] at h2 ⊢
      refine ⟨h2.1.trans h1.1, h2.2.1.trans h1.2.1, h2.2.2.1.trans h1.2.2.1, h2.2.2.2.trans h1.2.2.2⟩

theorem secondPass_data (lines : List Line) (c : CubeLUT) :
    (secondPass c lines).data = c.data ++ acceptedRows lines := by
  induction lines generalizing c with
  | nil => simp [secondPass, acceptedRows]
  | cons l ls ih =>
      have h2 := ih (secondPassStep c l)
      simp only [secondPass, List.foldl_cons] at h2 ⊢
      rw [h2, secondPassStep_data]
      cases h : rowOfLine l <;> simp [acceptedRows, List.filterMap_cons, h]

/-- What the first loop has established when it is left without `return false`: either no line
was a size directive and the object is untouched, or the first size directive set dimension,
size and capacity and its size is within the bound of its dimension. -/
theorem firstPass_done (lines : List Line) (c c1 : CubeLUT)
    (h : firstPass c lines = Pass1.done c1) :
    (c1 = c ∧ ∀ m ∈ lines, isSizeDirective m = false) ∨
      ∃ pre l post, lines = pre ++ l :: post ∧ (∀ m ∈ pre, isSizeDirective m = false) ∧
        isSizeDirective l = true ∧
        (((readToken { rest := l, fail := false }).1 = "LUT_1D_SIZE".toList ∧
            c1 = { c with
              dimension := 1
              size := (readUInt32 (readToken { rest := l, fail := false }).2 c.size).1
              capacity := (readUInt32 (readToken { rest := l, fail := false }).2 c.size).1 } ∧
            2 ≤ c1.size ∧ c1.size ≤ 65536) ∨
          ((readToken { rest := l, fail := false }).1 = "LUT_3D_SIZE".toList ∧
            c1 = { c with
              dimension := 3
              size := (readUInt32 (readToken { rest := l, fail := false }).2 c.size).1
              capacity :=
                ((readUInt32 (readToken { rest := l, fail := false }).2 c.size).1 *
                  (readUInt32 (readToken { rest := l, fail := false }).2 c.size).1 *
                  (readUInt32 (readToken { rest := l, fail := false }).2 c.size).1) % 4294967296 } ∧
            2 ≤ c1.size ∧ c1.size ≤ 256)) := by
  induction lines with
  | nil =>
      left
      simp only [firstPass, Pass1.done.injEq] at h
      exact ⟨h.symm, by simp⟩
  | cons l ls ih =>
      unfold firstPass at h
      by_cases hs : skipLine l = true
      · rw [if_pos hs] at h
        have hl : isSizeDirective l = false := by simp [isSizeDirective, hs]
        rcases ih h with ⟨h1, h2⟩ | ⟨pre, l', post, h1, h2, h3⟩
        · left
          refine ⟨h1, ?_⟩
          intro m hm
          rcases List.mem_cons.1 hm with rfl | hm
          · exact hl
          · exact h2 m hm
        · right
          refine ⟨l :: pre, l', post, by simp [h1], ?_, h3⟩
          intro m hm
          rcases List.mem_cons.1 hm with rfl | hm
          · exact hl
          · exact h2 m hm
      · rw [if_neg hs] at h
        dsimp only at h
        by_cases h1d : (readToken { rest := l, fail := false }).1 = "LUT_1D_SIZE".toList
        · rw [if_pos h1d] at h
          split at h
          · exact absurd h (by simp)
          · rename_i hb
            right
            refine ⟨[], l, ls, rfl, by simp, by simp [isSizeDirective, hs, h1d], Or.inl ⟨h1d, ?_, ?_⟩⟩
            · simp only [Pass1.done.injEq] at h
              exact h.symm
            · simp only [Pass1.done.injEq] at h
              subst h
              simp only
              omega
        · rw [if_neg h1d] at h
          by_cases h3d : (readToken { rest := l, fail := false }).1 = "LUT_3D_SIZE".toList
          · rw [if_pos h3d] at h
            split at h
            · exact absurd h (by simp)
            · rename_i hb
              right
              refine ⟨[], l, ls, rfl, by simp, by simp [isSizeDirective, hs, h3d],
                Or.inr ⟨h3d, ?_, ?_⟩⟩
              · simp only [Pass1.done.injEq] at h
                exact h.symm
              · simp only [Pass1.done.injEq] at h
                subst h
                simp only
                omega
          · rw [if_neg h3d] at h
            have hl : isSizeDirective l = false := by
              unfold isSizeDirective
              rw [decide_eq_false h1d, decide_eq_false h3d]
              simp
            rcases ih h with ⟨h1, h2⟩ | ⟨pre, l', post, h1, h2, h3⟩
            · left
              refine ⟨h1, ?_⟩
              intro m hm
              rcases List.mem_cons.1 hm with rfl | hm
              · exact hl
              · exact h2 m hm
            · right
              refine ⟨l :: pre, l', post, by simp [h1], ?_, h3⟩
              intro m hm
              rcases List.mem_cons.1 hm with rfl | hm
              · exact hl
              · exact h2 m hm

/-- The shape of a successful `CubeLUT::load`: the file was opened, the first loop was left
with a size, the second loop collected exactly `capacity` rows and no channel of the domain
is narrower than `eps`. -/
theorem load_true (self : CubeLUT) (file : Option (List Line))
    (h : (CubeLUT.load self file).1 = true) :
    ∃ lines c1, file = some lines ∧
      firstPass { self with size := 0, capacity := 0, data := [] } lines = Pass1.done c1 ∧
      c1.size ≠ 0 ∧
      (secondPass c1 lines).data.length = (secondPass c1 lines).capacity ∧
      F32.lt (RGB.sub (secondPass c1 lines).domain_max (secondPass c1 lines).domain_min).r eps
        = false ∧
      F32.lt (RGB.sub (secondPass c1 lines).domain_max (secondPass c1 lines).domain_min).g eps
        = false ∧
      F32.lt (RGB.sub (secondPass c1 lines).domain_max (secondPass c1 lines).domain_min).b eps
        = false ∧
      (CubeLUT.load self file).2 =
        { secondPass c1 lines with
          scale := RGB.div (secondPass c1 lines).scale
            (RGB.sub (secondPass c1 lines).domain_max (secondPass c1 lines).domain_min) } := by
  unfold CubeLUT.load at h ⊢
  cases file with
  | none => simp at h
  | some lines =>
      dsimp only at h ⊢
      cases hp : firstPass { self with size := 0, capacity := 0, data := [] } lines with
      | rejected c => rw [hp] at h; simp at h
      | done c1 =>
          rw [hp] at h
          dsimp only at h ⊢
          by_cases hz : c1.size = 0
          · rw [if_pos hz] at h; simp at h
          · rw [if_neg hz] at h ⊢
            by_cases hn : (secondPass c1 lines).data.length ≠ (secondPass c1 lines).capacity
            · rw [if_pos hn] at h; simp at h
            · rw [if_neg hn] at h ⊢
              split at h
              · simp at h
              · rename_i hr
                rw [if_neg hr]
                simp only [Bool.or_eq_true, not_or, Bool.not_eq_true] at hr
                exact ⟨lines, c1, rfl, hp, hz, not_not.1 hn, hr.1.1, hr.1.2, hr.2, rfl⟩

/-- Lines that are no size directive do not stop the first loop. -/
theorem firstPass_skip (pre rest : List Line) (c : CubeLUT)
    (h : ∀ m ∈ pre, isSizeDirective m = false) :
    firstPass c (pre ++ rest) = firstPass c rest := by
  induction pre with
  | nil => rfl
  | cons m ms ih =>
      have hm := h m (List.mem_cons_self m ms)
      have ih2 := ih (fun x hx => h x (List.mem_cons_of_mem m hx))
      rw [List.cons_append, firstPass]
      by_cases hs : skipLine m = true
      · rw [if_pos hs]; exact ih2
      · rw [if_neg hs]
        dsimp only
        unfold isSizeDirective at hm
        have hs2 : skipLine m = false := by simpa using hs
        rw [hs2] at hm
        simp only [Bool.not_false, Bool.true_and, Bool.or_eq_false_iff, decide_eq_false_iff_not]
          at hm
        rw [if_neg hm.1, if_neg hm.2]
        exact ih2

/-- A size up to `256` has a cube that fits `UINT32`. -/
theorem cube_lt (n : Nat) (h : n ≤ 256) : n * n * n < 4294967296 := by
  have h1 : n * n ≤ 256 * 256 := Nat.mul_le_mul h h
  have h2 : n * n * n ≤ 256 * 256 * 256 := Nat.mul_le_mul h1 h
  omega

/-- What holds of the object after a successful `CubeLUT::load`. -/
theorem load_true_shape (self : CubeLUT) (lines : List Line)
    (h : (CubeLUT.load self (some lines)).1 = true) :
    (CubeLUT.load self (some lines)).2.data = acceptedRows lines ∧
      (CubeLUT.load self (some lines)).2.data.length = (CubeLUT.load self (some lines)).2.capacity ∧
      (((CubeLUT.load self (some lines)).2.dimension = 1 ∧
          (CubeLUT.load self (some lines)).2.capacity = (CubeLUT.load self (some lines)).2.size ∧
          2 ≤ (CubeLUT.load self (some lines)).2.size ∧
          (CubeLUT.load self (some lines)).2.size ≤ 65536) ∨
        ((CubeLUT.load self (some lines)).2.dimension = 3 ∧
          (CubeLUT.load self (some lines)).2.capacity = (CubeLUT.load self (some lines)).2.size ^ 3 ∧
          2 ≤ (CubeLUT.load self (some lines)).2.size ∧
          (CubeLUT.load self (some lines)).2.size ≤ 256)) := by
  obtain ⟨lines', c1, hf, hp, hz, hlen, -, -, -, heq⟩ := load_true self (some lines) h
  cases hf
  rw [heq]
  have hsz := secondPass_size lines c1
  have hdat := secondPass_data lines c1
  dsimp only
  rw [hsz.1, hsz.2.1, hsz.2.2.1]
  rcases firstPass_done lines _ c1 hp with ⟨h1, -⟩ | ⟨pre, l, post, -, -, -, hd⟩
  · subst h1
    exact absurd rfl hz
  · have hdata : c1.data = [] := by
      rcases hd with ⟨-, hc, -⟩ | ⟨-, hc, -⟩ <;> rw [hc]
    rw [hdata, List.nil_append] at hdat
    refine ⟨hdat, by rw [hlen, hsz.2.1], ?_⟩
    rcases hd with ⟨-, hc, h2, h3⟩ | ⟨-, hc, h2, h3⟩
    · left
      refine ⟨by rw [hc], by rw [hc], h2, h3⟩
    · right
      refine ⟨by rw [hc], ?_, h2, h3⟩
      have hs : c1.size = (readUInt32 (readToken { rest := l, fail := false }).2 0).1 := by
        rw [hc]
      have hcap : c1.capacity = (c1.size * c1.size * c1.size) % 4294967296 := by
        rw [hc]
      rw [hcap, Nat.mod_eq_of_lt (cube_lt _ h3)]
      ring

/-! ## The claims -/

/-- C1: `CubeLUT::load` succeeds only if the data rows the second pass accepts are exactly as
many as the declared capacity (`size` for `LUT_1D_SIZE`, `size ^ 3` for `LUT_3D_SIZE`); the
stored data are those rows.  A file declaring `LUT_1D_SIZE 4` fails with 3 rows and fails with
5 rows. -/
theorem C1_load_requires_exact_row_count :
    (∀ (self : CubeLUT) (lines : List Line), (CubeLUT.load self (some lines)).1 = true →
      (CubeLUT.load self (some lines)).2.data = acceptedRows lines ∧
      (acceptedRows lines).length = (CubeLUT.load self (some lines)).2.capacity ∧
      (((CubeLUT.load self (some lines)).2.dimension = 1 ∧
          (CubeLUT.load self (some lines)).2.capacity = (CubeLUT.load self (some lines)).2.size) ∨
        ((CubeLUT.load self (some lines)).2.dimension = 3 ∧
          (CubeLUT.load self (some lines)).2.capacity =
            (CubeLUT.load self (some lines)).2.size ^ 3))) ∧
    (CubeLUT.load CubeLUT.fresh
      (fileOf ["LUT_1D_SIZE 4", "0 0 0", "0.5 0.5 0.5", "1 1 1"])).1 = false ∧
    (CubeLUT.load CubeLUT.fresh
      (fileOf ["LUT_1D_SIZE 4", "0 0 0", "0.25 0.25 0.25", "0.5 0.5 0.5", "0.75 0.75 0.75",
        "1 1 1"])).1 = false := by
  refine ⟨?_, by decide!, by decide!⟩
  intro self lines h
  have hs := load_true_shape self lines h
  refine ⟨hs.1, by rw [← hs.1]; exact hs.2.1, ?_⟩
  rcases hs.2.2 with ⟨a, b, -⟩ | ⟨a, b, -⟩
  · exact Or.inl ⟨a, b⟩
  · exact Or.inr ⟨a, b⟩

/-- C1, at a file: `LUT_1D_SIZE 4` followed by exactly four rows loads, and four rows are what
the second pass accepted. -/
theorem C1_load_requires_exact_row_count_witness :
    (CubeLUT.load CubeLUT.fresh
        (some (["LUT_1D_SIZE 4", "0 0 0", "0.25 0.25 0.25", "0.5 0.5 0.5", "1 1 1"].map
          String.toList))).1 = true ∧
      (acceptedRows (["LUT_1D_SIZE 4", "0 0 0", "0.25 0.25 0.25", "0.5 0.5 0.5", "1 1 1"].map
          String.toList)).length =
        (CubeLUT.load CubeLUT.fresh
          (some (["LUT_1D_SIZE 4", "0 0 0", "0.25 0.25 0.25", "0.5 0.5 0.5", "1 1 1"].map
            String.toList))).2.capacity :=
  ⟨by decide!, (C1_load_requires_exact_row_count.1 CubeLUT.fresh _ (by decide!)).2.1⟩

/-- C2: `CubeLUT::load` succeeds only if some line that is not skipped has `LUT_1D_SIZE` or
`LUT_3D_SIZE` as its first token, and the size read from the first such line is within
`2 .. 65536` for `LUT_1D_SIZE` and within `2 .. 256` for `LUT_3D_SIZE`.  A file without a size
directive fails, a file whose first directive has a size out of its bound fails, and so do
`LUT_3D_SIZE 300` and `LUT_1D_SIZE 1`. -/
theorem C2_load_requires_size_directive_in_bounds :
    (∀ (self : CubeLUT) (lines : List Line), (CubeLUT.load self (some lines)).1 = true →
      ∃ pre l post, lines = pre ++ l :: post ∧ (∀ m ∈ pre, isSizeDirective m = false) ∧
        isSizeDirective l = true ∧
        (CubeLUT.load self (some lines)).2.size = directiveSize l ∧
        (((readToken { rest := l, fail := false }).1 = "LUT_1D_SIZE".toList ∧
            (CubeLUT.load self (some lines)).2.dimension = 1 ∧
            2 ≤ directiveSize l ∧ directiveSize l ≤ 65536) ∨
          ((readToken { rest := l, fail := false }).1 = "LUT_3D_SIZE".toList ∧
            (CubeLUT.load self (some lines)).2.dimension = 3 ∧
            2 ≤ directiveSize l ∧ directiveSize l ≤ 256))) ∧
    (∀ (self : CubeLUT) (lines : List Line), (∀ m ∈ lines, isSizeDirective m = false) →
      (CubeLUT.load self (some lines)).1 = false) ∧
    (∀ (self : CubeLUT) (pre post : List Line) (l : Line),
      (∀ m ∈ pre, isSizeDirective m = false) → isSizeDirective l = true →
      ((readToken { rest := l, fail := false }).1 = "LUT_1D_SIZE".toList →
        directiveSize l < 2 ∨ 65536 < directiveSize l) →
      ((readToken { rest := l, fail := false }).1 = "LUT_3D_SIZE".toList →
        directiveSize l < 2 ∨ 256 < directiveSize l) →
      (CubeLUT.load self (some (pre ++ l :: post))).1 = false) ∧
    (CubeLUT.load CubeLUT.fresh
      (fileOf ["LUT_3D_SIZE 300", "0 0 0", "1 1 1"])).1 = false ∧
    (CubeLUT.load CubeLUT.fresh (fileOf ["LUT_1D_SIZE 1", "0 0 0"])).1 = false ∧
    (CubeLUT.load CubeLUT.fresh (fileOf ["# no size", "0 0 0", "1 1 1"])).1 = false := by
  refine ⟨?_, ?_, ?_, by decide!, by decide!, by decide!⟩
  · intro self lines h
    obtain ⟨lines', c1, hf, hp, hz, -, -, -, -, heq⟩ := load_true self (some lines) h
    cases hf
    have hsz := secondPass_size lines c1
    rcases firstPass_done lines _ c1 hp with ⟨h1, -⟩ | ⟨pre, l, post, e1, e2, e3, hd⟩
    · subst h1
      exact absurd rfl hz
    · refine ⟨pre, l, post, e1, e2, e3, ?_, ?_⟩
      · rw [heq]
        dsimp only
        rw [hsz.1]
        rcases hd with ⟨-, hc, -⟩ | ⟨-, hc, -⟩ <;> rw [hc] <;> rfl
      · rw [heq]
        dsimp only
        rw [hsz.2.2.1]
        rcases hd with ⟨ht, hc, h2, h3⟩ | ⟨ht, hc, h2, h3⟩
        · left
          have hs : c1.size = directiveSize l := by rw [hc]; rfl
          exact ⟨ht, by rw [hc], hs ▸ h2, hs ▸ h3⟩
        · right
          have hs : c1.size = directiveSize l := by rw [hc]; rfl
          exact ⟨ht, by rw [hc], hs ▸ h2, hs ▸ h3⟩
  · intro self lines hno
    cases hb : (CubeLUT.load self (some lines)).1 with
    | false => rfl
    | true =>
        obtain ⟨lines', c1, hf, hp, hz, -⟩ := load_true self (some lines) hb
        cases hf
        rcases firstPass_done lines _ c1 hp with ⟨h1, -⟩ | ⟨pre, l, post, e1, -, e3, -⟩
        · subst h1
          exact absurd rfl hz
        · have := hno l (by rw [e1]; simp)
          rw [this] at e3
          exact absurd e3 (by simp)
  · intro self pre post l hpre hl h1 h3
    unfold CubeLUT.load
    dsimp only
    rw [firstPass_skip pre (l :: post) _ hpre, firstPass]
    unfold isSizeDirective at hl
    simp only [Bool.and_eq_true, Bool.not_eq_true', Bool.or_eq_true, decide_eq_true_eq] at hl
    rw [hl.1]
    simp only [Bool.false_eq_true, if_false]
    by_cases ht : (readToken { rest := l, fail := false }).1 = "LUT_1D_SIZE".toList
    · rw [if_pos ht]
      have := h1 ht
      unfold directiveSize at this
      rw [if_pos this]
    · rw [if_neg ht]
      have ht3 := hl.2.resolve_left ht
      rw [if_pos ht3]
      have := h3 ht3
      unfold directiveSize at this
      rw [if_pos this]

/-- C2, at a file: `LUT_1D_SIZE 2` with two rows loads, and the size directive it was loaded
from exists in it. -/
theorem C2_load_requires_size_directive_in_bounds_witness :
    (CubeLUT.load CubeLUT.fresh (some (["LUT_1D_SIZE 2", "0 0 0", "1 1 1"].map String.toList))).1
        = true ∧
      ∃ pre l post, ["LUT_1D_SIZE 2", "0 0 0", "1 1 1"].map String.toList = pre ++ l :: post ∧
        isSizeDirective l = true :=
  ⟨by decide!,
    match C2_load_requires_size_directive_in_bounds.1 CubeLUT.fresh
      (["LUT_1D_SIZE 2", "0 0 0", "1 1 1"].map String.toList) (by decide!) with
    | ⟨pre, l, post, h1, _, h3, _⟩ => ⟨pre, l, post, h1, h3⟩⟩

/-! ### The domain read by the second loop -/

/-- A binary32 value is its own rounding. -/
theorem round32_of_isBinary32 (q : ℚ) (h : isBinary32 q = true) : round32 q = some q := by
  unfold round32
  rw [if_pos h]

/-- Rounding yields binary32 values only. -/
theorem round32_isBinary32 (q r : ℚ) (h : round32 q = some r) : isBinary32 r = true := by
  unfold round32 at h
  split at h
  · rename_i hq
    simp only [Option.some.injEq] at h
    rw [← h]
    exact hq
  · split at h
    · rename_i hn
      simp only [Option.some.injEq] at h
      rw [← h]
      exact hn
    · exact absurd h (by simp)

theorem F32.ofRat_of_isBinary32 (q : ℚ) (h : isBinary32 q = true) : F32.ofRat q = F32.fin q := by
  unfold F32.ofRat
  rw [round32_of_isBinary32 q h]

/-- The result of an operation is a binary32 number or an infinity of the sign of the exact
result. -/
theorem F32.ofRat_cases (q : ℚ) :
    (∃ r, F32.ofRat q = F32.fin r ∧ round32 q = some r ∧ isBinary32 r = true) ∨
      (F32.ofRat q = F32.inf (decide (q < 0)) ∧ round32 q = none) := by
  unfold F32.ofRat
  cases h : round32 q with
  | none => exact Or.inr ⟨rfl, rfl⟩
  | some r => exact Or.inl ⟨r, rfl, rfl, round32_isBinary32 q r h⟩

theorem F32.ofRat_isCanon (q : ℚ) : (F32.ofRat q).isCanon = true := by
  rcases F32.ofRat_cases q with ⟨r, h, -, hr⟩ | ⟨h, -⟩
  · rw [h]; exact hr
  · rw [h]; rfl

theorem storeFloat_isFin (q : ℚ) (rest : List Char) : (storeFloat q rest).1.isFin = true := by
  unfold storeFloat
  split <;> rfl

theorem storeFloat_isCanon (q : ℚ) (rest : List Char) :
    (storeFloat q rest).1.isCanon = true := by
  unfold storeFloat
  split
  · rename_i r h
    exact round32_isBinary32 q r h
  · dsimp only
    split
    · decide!
    · decide!

theorem readFloat_isFin (s : IStream) (old : F32) (h : old.isFin = true) :
    (readFloat s old).1.isFin = true := by
  unfold readFloat
  split
  · exact h
  · split
    · exact h
    · dsimp only
      split
      · rfl
      · split
        · split
          · split
            · rfl
            · exact storeFloat_isFin _ _
          · exact storeFloat_isFin _ _
        · exact storeFloat_isFin _ _

/-- What `operator>>` leaves in a `float` is a value a `float` can hold, if the value before
was one. -/
theorem readFloat_isCanon (s : IStream) (old : F32) (h : old.isCanon = true) :
    (readFloat s old).1.isCanon = true := by
  have h0 : (F32.fin 0).isCanon = true := by decide!
  unfold readFloat
  split
  · exact h
  · split
    · exact h
    · dsimp only
      split
      · exact h0
      · split
        · split
          · split
            · exact h0
            · exact storeFloat_isCanon _ _
          · exact storeFloat_isCanon _ _
        · exact storeFloat_isCanon _ _

theorem charsFloat_isCanon (q : ℚ) (rest : List Char) (v : F32) (ptr : List Char)
    (h : charsFloat q rest = some (v, ptr)) : v.isCanon = true := by
  unfold charsFloat at h
  split at h
  · rename_i r hr
    split at h
    · exact absurd h (by simp)
    · simp only [Option.some.injEq, Prod.mk.injEq] at h
      rw [← h.1]
      exact round32_isBinary32 q r hr
  · exact absurd h (by simp)

/-- What `from_chars` returns is a value a `float` can hold. -/
theorem from_chars_isCanon (tok : List Char) (v : F32) (ptr : List Char)
    (h : from_chars tok = some (v, ptr)) : v.isCanon = true := by
  unfold from_chars at h
  dsimp only at h
  split_ifs at h
  · simp only [Option.some.injEq, Prod.mk.injEq] at h
    rw [← h.1]; rfl
  · simp only [Option.some.injEq, Prod.mk.injEq] at h
    rw [← h.1]; rfl
  · simp only [Option.some.injEq, Prod.mk.injEq] at h
    rw [← h.1]; rfl
  · split at h
    · exact absurd h (by simp)
    · split at h
      · exact charsFloat_isCanon _ _ v ptr h
      · exact charsFloat_isCanon _ _ v ptr h

theorem readRGB_isFin (s : IStream) (old : RGB) (h : old.isFin = true) :
    (readRGB s old).isFin = true := by
  unfold RGB.isFin at h ⊢
  simp only [Bool.and_eq_true] at h ⊢
  unfold readRGB
  exact ⟨⟨readFloat_isFin _ _ h.1.1, readFloat_isFin _ _ h.1.2⟩, readFloat_isFin _ _ h.2⟩

theorem secondPassStep_isFin (c : CubeLUT) (line : Line)
    (h : c.domain_min.isFin = true ∧ c.domain_max.isFin = true) :
    (secondPassStep c line).domain_min.isFin = true ∧
      (secondPassStep c line).domain_max.isFin = true := by
  unfold secondPassStep
  split
  · exact h
  · dsimp only
    split
    · exact ⟨readRGB_isFin _ _ h.1, h.2⟩
    · split
      · exact ⟨h.1, readRGB_isFin _ _ h.2⟩
      · split <;> exact h

theorem secondPass_isFin (lines : List Line) (c : CubeLUT)
    (h : c.domain_min.isFin = true ∧ c.domain_max.isFin = true) :
    (secondPass c lines).domain_min.isFin = true ∧ (secondPass c lines).domain_max.isFin = true := by
  induction lines generalizing c with
  | nil => exact h
  | cons l ls ih => exact ih _ (secondPassStep_isFin c l h)

theorem firstPass_domain (lines : List Line) (c c1 : CubeLUT)
    (h : firstPass c lines = Pass1.done c1) :
    c1.domain_min = c.domain_min ∧ c1.domain_max = c.domain_max ∧ c1.scale = c.scale := by
  rcases firstPass_done lines c c1 h with ⟨h1, -⟩ | ⟨pre, l, post, -, -, -, hd⟩
  · subst h1
    exact ⟨rfl, rfl, rfl⟩
  · rcases hd with ⟨-, hc, -⟩ | ⟨-, hc, -⟩ <;> rw [hc] <;> exact ⟨rfl, rfl, rfl⟩

/-- A comparison `x - y < eps` of ordinary numbers that comes out false: the difference, as
`float` subtraction gives it, is a number of at least `eps`, or it overflowed to `+inf`. -/
theorem sub_not_lt_eps (x y : F32) (hx : x.isFin = true) (hy : y.isFin = true)
    (h : F32.lt (F32.sub x y) eps = false) :
    F32.sub x y = F32.inf false ∨
      ∃ q : ℚ, F32.sub x y = F32.fin q ∧ 13743895 / 137438953472 ≤ q := by
  cases x with
  | fin a =>
      cases y with
      | fin b =>
          have hs : F32.sub (F32.fin a) (F32.fin b) = F32.ofRat (a - b) := rfl
          rw [hs] at h ⊢
          rcases F32.ofRat_cases (a - b) with ⟨r, hr, -, -⟩ | ⟨hr, -⟩
          · rw [hr] at h ⊢
            right
            refine ⟨r, rfl, ?_⟩
            simp only [eps, F32.lt, decide_eq_false_iff_not, not_lt] at h
            exact h
          · rw [hr] at h ⊢
            left
            simp only [eps, F32.lt] at h
            rw [h]
      | inf s => simp [F32.isFin] at hy
      | nan => simp [F32.isFin] at hy
  | inf s => simp [F32.isFin] at hx
  | nan => simp [F32.isFin] at hx

/-- C3 as stated fails: with `DOMAIN_MAX 0.0001 1 1` over `DOMAIN_MIN 0 0 0` the literal
`0.0001` is read as the `float` `1.0e-4f`, the red range is exactly `eps`, which is not
greater than `eps`, and `CubeLUT::load` returns true. -/
theorem C3_counterexample :
    (CubeLUT.load CubeLUT.fresh
        (fileOf ["LUT_1D_SIZE 2", "DOMAIN_MIN 0 0 0", "DOMAIN_MAX 0.0001 1 1", "0 0 0",
          "1 1 1"])).1 = true ∧
      F32.sub
          (CubeLUT.load CubeLUT.fresh
            (fileOf ["LUT_1D_SIZE 2", "DOMAIN_MIN 0 0 0", "DOMAIN_MAX 0.0001 1 1", "0 0 0",
              "1 1 1"])).2.domain_max.r
          (CubeLUT.load CubeLUT.fresh
            (fileOf ["LUT_1D_SIZE 2", "DOMAIN_MIN 0 0 0", "DOMAIN_MAX 0.0001 1 1", "0 0 0",
              "1 1 1"])).2.domain_min.r = eps ∧
      F32.lt eps
          (F32.sub
            (CubeLUT.load CubeLUT.fresh
              (fileOf ["LUT_1D_SIZE 2", "DOMAIN_MIN 0 0 0", "DOMAIN_MAX 0.0001 1 1", "0 0 0",
                "1 1 1"])).2.domain_max.r
            (CubeLUT.load CubeLUT.fresh
              (fileOf ["LUT_1D_SIZE 2", "DOMAIN_MIN 0 0 0", "DOMAIN_MAX 0.0001 1 1", "0 0 0",
                "1 1 1"])).2.domain_min.r) = false := by
  decide!

/-- C3, amended: `CubeLUT::load` fails whenever `domain_max - domain_min`, as `float`
subtraction gives it, is strictly less than `eps = 1.0e-4f` on some channel (a zero or
inverted range included).  Every successful load has, on all three channels, a range that is
not below `eps`; loaded into a fresh object each of the three ranges is a number of at least
`eps = 13743895 * 2 ^ (-37)` or, when the subtraction overflows, `+inf`.  At the threshold: a
`DOMAIN_MAX` of `0.0001` or of `0.00009999999747` over the minimum 0 is read as `eps` itself
and loads, one of `0.00009999999` is read as the `float` below `eps` and fails, and
`DOMAIN_MIN 0 0 0` / `DOMAIN_MAX 0.00001 1 1` fails. -/
theorem C3_load_rejects_range_below_eps :
    (∀ (self : CubeLUT) (lines : List Line), (CubeLUT.load self (some lines)).1 = true →
      F32.lt (RGB.sub (CubeLUT.load self (some lines)).2.domain_max
        (CubeLUT.load self (some lines)).2.domain_min).r eps = false ∧
      F32.lt (RGB.sub (CubeLUT.load self (some lines)).2.domain_max
        (CubeLUT.load self (some lines)).2.domain_min).g eps = false ∧
      F32.lt (RGB.sub (CubeLUT.load self (some lines)).2.domain_max
        (CubeLUT.load self (some lines)).2.domain_min).b eps = false) ∧
    (∀ (lines : List Line), (CubeLUT.load CubeLUT.fresh (some lines)).1 = true →
      ((RGB.sub (CubeLUT.load CubeLUT.fresh (some lines)).2.domain_max
          (CubeLUT.load CubeLUT.fresh (some lines)).2.domain_min).r = F32.inf false ∨
        ∃ q : ℚ, (RGB.sub (CubeLUT.load CubeLUT.fresh (some lines)).2.domain_max
          (CubeLUT.load CubeLUT.fresh (some lines)).2.domain_min).r = F32.fin q ∧
          13743895 / 137438953472 ≤ q) ∧
      ((RGB.sub (CubeLUT.load CubeLUT.fresh (some lines)).2.domain_max
          (CubeLUT.load CubeLUT.fresh (some lines)).2.domain_min).g = F32.inf false ∨
        ∃ q : ℚ, (RGB.sub (CubeLUT.load CubeLUT.fresh (some lines)).2.domain_max
          (CubeLUT.load CubeLUT.fresh (some lines)).2.domain_min).g = F32.fin q ∧
          13743895 / 137438953472 ≤ q) ∧
      ((RGB.sub (CubeLUT.load CubeLUT.fresh (some lines)).2.domain_max
          (CubeLUT.load CubeLUT.fresh (some lines)).2.domain_min).b = F32.inf false ∨
        ∃ q : ℚ, (RGB.sub (CubeLUT.load CubeLUT.fresh (some lines)).2.domain_max
          (CubeLUT.load CubeLUT.fresh (some lines)).2.domain_min).b = F32.fin q ∧
          13743895 / 137438953472 ≤ q)) ∧
    ((CubeLUT.load CubeLUT.fresh
        (fileOf ["LUT_1D_SIZE 2", "DOMAIN_MIN 0 0 0", "DOMAIN_MAX 0.00001 1 1", "0 0 0",
          "1 1 1"])).1 = false ∧
      (CubeLUT.load CubeLUT.fresh
        (fileOf ["LUT_1D_SIZE 2", "DOMAIN_MAX 0.00009999999 1 1", "0 0 0", "1 1 1"])).1 = false ∧
      (CubeLUT.load CubeLUT.fresh
        (fileOf ["LUT_1D_SIZE 2", "DOMAIN_MAX 0.00009999999747 1 1", "0 0 0", "1 1 1"])).1
          = true ∧
      (CubeLUT.load CubeLUT.fresh
        (fileOf ["LUT_1D_SIZE 2", "DOMAIN_MAX 0.0001 1 1", "0 0 0", "1 1 1"])).1 = true ∧
      (CubeLUT.load CubeLUT.fresh
        (fileOf ["LUT_1D_SIZE 2", "DOMAIN_MIN -3e38 0 0", "DOMAIN_MAX 3e38 1 1", "0 0 0",
          "1 1 1"])).1 = true ∧
      (RGB.sub
        (CubeLUT.load CubeLUT.fresh
          (fileOf ["LUT_1D_SIZE 2", "DOMAIN_MIN -3e38 0 0", "DOMAIN_MAX 3e38 1 1", "0 0 0",
            "1 1 1"])).2.domain_max
        (CubeLUT.load CubeLUT.fresh
          (fileOf ["LUT_1D_SIZE 2", "DOMAIN_MIN -3e38 0 0", "DOMAIN_MAX 3e38 1 1", "0 0 0",
            "1 1 1"])).2.domain_min).r = F32.inf false) := by
  have main : ∀ (self : CubeLUT) (lines : List Line), (CubeLUT.load self (some lines)).1 = true →
      F32.lt (RGB.sub (CubeLUT.load self (some lines)).2.domain_max
        (CubeLUT.load self (some lines)).2.domain_min).r eps = false ∧
      F32.lt (RGB.sub (CubeLUT.load self (some lines)).2.domain_max
        (CubeLUT.load self (some lines)).2.domain_min).g eps = false ∧
      F32.lt (RGB.sub (CubeLUT.load self (some lines)).2.domain_max
        (CubeLUT.load self (some lines)).2.domain_min).b eps = false := by
    intro self lines h
    obtain ⟨lines', c1, hf, -, -, -, hr, hg, hb, heq⟩ := load_true self (some lines) h
    cases hf
    rw [heq]
    exact ⟨hr, hg, hb⟩
  refine ⟨main, ?_, by decide!⟩
  intro lines h
  have hm := main CubeLUT.fresh lines h
  obtain ⟨lines', c1, hf, hp, -, -, -, -, -, heq⟩ := load_true CubeLUT.fresh (some lines) h
  cases hf
  have hd := firstPass_domain lines _ c1 hp
  have hfin := secondPass_isFin lines c1
    ⟨by rw [hd.1]; rfl, by rw [hd.2.1]; rfl⟩
  rw [heq] at hm ⊢
  dsimp only at hm ⊢
  unfold RGB.isFin at hfin
  simp only [Bool.and_eq_true] at hfin
  exact ⟨sub_not_lt_eps _ _ hfin.2.1.1 hfin.1.1.1 hm.1,
    sub_not_lt_eps _ _ hfin.2.1.2 hfin.1.1.2 hm.2.1,
    sub_not_lt_eps _ _ hfin.2.2 hfin.1.2 hm.2.2⟩

/-- C3 amended, at a file: the default domain loads and its red range is not below `eps`. -/
theorem C3_load_rejects_range_below_eps_witness :
    (CubeLUT.load CubeLUT.fresh (some (["LUT_1D_SIZE 2", "0 0 0", "1 1 1"].map String.toList))).1
        = true ∧
      F32.lt (RGB.sub
        (CubeLUT.load CubeLUT.fresh
          (some (["LUT_1D_SIZE 2", "0 0 0", "1 1 1"].map String.toList))).2.domain_max
        (CubeLUT.load CubeLUT.fresh
          (some (["LUT_1D_SIZE 2", "0 0 0", "1 1 1"].map String.toList))).2.domain_min).r eps
        = false :=
  ⟨by decide!, (C3_load_rejects_range_below_eps.1 CubeLUT.fresh _ (by decide!)).1⟩

/-! ### Index arithmetic of the 3D re-layout -/

theorem two_digits_lt (n a b : Nat) (ha : a < n) (hb : b < n) : a + b * n < n * n := by
  have h : (b + 1) * n ≤ n * n := Nat.mul_le_mul_right n hb
  rw [Nat.add_mul, Nat.one_mul] at h
  omega

theorem three_digits_lt (n a b c : Nat) (ha : a < n) (hb : b < n) (hc : c < n) :
    a + b * n + c * (n * n) < n * (n * n) := by
  have h1 := two_digits_lt n a b ha hb
  have h : (c + 1) * (n * n) ≤ n * (n * n) := Nat.mul_le_mul_right (n * n) hc
  rw [Nat.add_mul, Nat.one_mul] at h
  omega

/-- The three digits of `a + b * n + c * n²` in base `n`. -/
theorem three_digits (n a b c : Nat) (ha : a < n) (hb : b < n) :
    (a + b * n + c * (n * n)) % n = a ∧ (a + b * n + c * (n * n)) / n % n = b ∧
      (a + b * n + c * (n * n)) / (n * n) = c := by
  have hn : 0 < n := by omega
  have e : a + b * n + c * (n * n) = a + n * (b + n * c) := by ring
  have hdiv : (a + b * n + c * (n * n)) / n = b + n * c := by
    rw [e, Nat.add_mul_div_left _ _ hn, Nat.div_eq_of_lt ha, Nat.zero_add]
  refine ⟨?_, ?_, ?_⟩
  · rw [e, Nat.add_mul_mod_self_left, Nat.mod_eq_of_lt ha]
  · rw [hdiv, Nat.add_mul_mod_self_left, Nat.mod_eq_of_lt hb]
  · rw [← Nat.div_div_eq_div_mul, hdiv, Nat.add_mul_div_left _ _ hn, Nat.div_eq_of_lt hb,
      Nat.zero_add]

/-- An index below `n³` is its three digits in base `n`. -/
theorem digits_decompose (n i : Nat) :
    i = i % n + (i / n % n) * n + (i / (n * n)) * (n * n) := by
  have h1 := Nat.div_add_mod i n
  have h2 := Nat.div_add_mod (i / n) n
  rw [Nat.div_div_eq_div_mul] at h2
  have h3 : n * (i / n) = n * (n * (i / (n * n)) + i / n % n) := by rw [h2]
  have h4 : n * (n * (i / (n * n)) + i / n % n) = (i / n % n) * n + (i / (n * n)) * (n * n) := by
    ring
  omega

theorem digits_lt (n i : Nat) (hn : 0 < n) (hi : i < n ^ 3) :
    i % n < n ∧ i / n % n < n ∧ i / (n * n) < n := by
  refine ⟨Nat.mod_lt _ hn, Nat.mod_lt _ hn, ?_⟩
  rw [Nat.div_lt_iff_lt_mul (Nat.mul_pos hn hn)]
  have : n ^ 3 = n * (n * n) := by ring
  omega

/-- The destination `x + y * n + z * n²` of file index `i`, as a number. -/
theorem destIndex_eq (n i : Nat) (hn0 : 0 < n) (hn : n ≤ 256) (hi : i < n ^ 3) :
    destIndex n ((n * n) % 4294967296) i = i / (n * n) + (i / n % n) * n + (i % n) * (n * n) ∧
      destIndex n ((n * n) % 4294967296) i < n ^ 3 := by
  have hd := digits_lt n i hn0 hi
  have hlt := three_digits_lt n (i / (n * n)) (i / n % n) (i % n) hd.2.2 hd.2.1 hd.1
  have hcube := cube_lt n hn
  have hsq : n * n < 4294967296 := by
    have : n * n ≤ 256 * 256 := Nat.mul_le_mul hn hn
    omega
  have e3 : n ^ 3 = n * (n * n) := by ring
  have e4 : n * n * n = n * (n * n) := by ring
  unfold destIndex
  dsimp only
  rw [Nat.mod_eq_of_lt hsq, Nat.mod_eq_of_lt (by omega)]
  exact ⟨rfl, by omega⟩

/-- The destination index is its own inverse on `[0, n³)`, hence one-to-one there. -/
theorem destIndex_involutive (n i : Nat) (hn0 : 0 < n) (hn : n ≤ 256) (hi : i < n ^ 3) :
    destIndex n ((n * n) % 4294967296) (destIndex n ((n * n) % 4294967296) i) = i := by
  have hd := digits_lt n i hn0 hi
  have h1 := destIndex_eq n i hn0 hn hi
  have h2 := destIndex_eq n _ hn0 hn h1.2
  have h3 := three_digits n (i / (n * n)) (i / n % n) (i % n) hd.2.2 hd.2.1
  rw [h2.1, h1.1, h3.1, h3.2.1, h3.2.2]
  exact (digits_decompose n i).symm

theorem destIndex_injective (n i j : Nat) (hn0 : 0 < n) (hn : n ≤ 256) (hi : i < n ^ 3)
    (hj : j < n ^ 3)
    (h : destIndex n ((n * n) % 4294967296) i = destIndex n ((n * n) % 4294967296) j) :
    i = j := by
  rw [← destIndex_involutive n i hn0 hn hi, ← destIndex_involutive n j hn0 hn hj, h]

/-! ### Loops that store one value per index -/

theorem foldl_set_length {α : Type} (dest : Nat → Nat) (val : Nat → α) (l : List Nat)
    (buf : List α) :
    (l.foldl (fun b j => b.set (dest j) (val j)) buf).length = buf.length := by
  induction l generalizing buf with
  | nil => rfl
  | cons a t ih => rw [List.foldl_cons, ih, List.length_set]

theorem foldl_set_untouched {α : Type} (dest : Nat → Nat) (val : Nat → α) (l : List Nat)
    (buf : List α) (k : Nat) (h : ∀ j ∈ l, dest j ≠ k) :
    (l.foldl (fun b j => b.set (dest j) (val j)) buf)[k]? = buf[k]? := by
  induction l generalizing buf with
  | nil => rfl
  | cons a t ih =>
      rw [List.foldl_cons, ih _ (fun j hj => h j (List.mem_cons_of_mem a hj)),
        List.getElem?_set_ne (h a (List.mem_cons_self a t))]

/-- A loop that stores `val j` at `dest j` for the indices `j` of a list without repetition, with
`dest` one-to-one on the list and inside the buffer, leaves `val i` at `dest i`. -/
theorem foldl_set_get {α : Type} (dest : Nat → Nat) (val : Nat → α) (l : List Nat)
    (buf : List α) (hnd : l.Nodup)
    (hinj : ∀ i ∈ l, ∀ j ∈ l, dest i = dest j → i = j)
    (hlt : ∀ i ∈ l, dest i < buf.length) (i : Nat) (hi : i ∈ l) :
    (l.foldl (fun b j => b.set (dest j) (val j)) buf)[dest i]? = some (val i) := by
  induction l generalizing buf with
  | nil => simp at hi
  | cons a t ih =>
      rw [List.foldl_cons]
      have hnd2 := List.nodup_cons.1 hnd
      rcases List.mem_cons.1 hi with rfl | hit
      · rw [foldl_set_untouched]
        · exact List.getElem?_set_self (hlt i (List.mem_cons_self i t))
        · intro j hj hji
          have := hinj j (List.mem_cons_of_mem i hj) i (List.mem_cons_self i t) hji
          exact hnd2.1 (this ▸ hj)
      · apply ih _ hnd2.2
        · intro x hx y hy
          exact hinj x (List.mem_cons_of_mem a hx) y (List.mem_cons_of_mem a hy)
        · intro x hx
          rw [List.length_set]
          exact hlt x (List.mem_cons_of_mem a hx)
        · exact hit

/-- The buffer of `case 3` holds, at the destination of file index `i`, the normalised sample
`i` with alpha one. -/
theorem buffer3D_get (cube : CubeLUT) (hn2 : 2 ≤ cube.size) (hn : cube.size ≤ 256)
    (hcap : cube.capacity = cube.size ^ 3) (i : Nat) (hi : i < cube.size ^ 3) :
    (buffer3D cube)[destIndex cube.size ((cube.size * cube.size) % 4294967296) i]? =
      some ⟨(normalized cube i).r, (normalized cube i).g, (normalized cube i).b, F32.fin 1⟩ := by
  have hn0 : 0 < cube.size := by omega
  unfold buffer3D body3D
  apply foldl_set_get (destIndex cube.size ((cube.size * cube.size) % 4294967296))
    (fun i => (⟨(normalized cube i).r, (normalized cube i).g, (normalized cube i).b, F32.fin 1⟩ :
      RGBA))
  · exact List.nodup_range _
  · intro x hx y hy hxy
    rw [List.mem_range, hcap] at hx hy
    exact destIndex_injective _ x y hn0 hn hx hy hxy
  · intro x hx
    rw [List.mem_range, hcap] at hx
    rw [List.length_replicate, hcap]
    exact (destIndex_eq _ x hn0 hn hx).2
  · rw [List.mem_range, hcap]
    exact hi

/-- C4 as stated fails: in a 3D cube of size 2 the offset `x * n² + y * n + z` of file index 1
is 1, and the buffer holds there the sample of file index 4, not that of file index 1; sample 1
is at offset `x + y * n + z * n² = 4`. -/
theorem C4_counterexample :
    (CubeLUT.load CubeLUT.fresh (some cube3DExample)).1 = true ∧
      (CubeLUT.load CubeLUT.fresh (some cube3DExample)).2.dimension = 3 ∧
      (CubeLUT.load CubeLUT.fresh (some cube3DExample)).2.size = 2 ∧
      (buffer3D (CubeLUT.load CubeLUT.fresh (some cube3DExample)).2)[
          (1 / (2 * 2)) * (2 * 2) + (1 / 2 % 2) * 2 + 1 % 2]? ≠
        some ⟨(normalized (CubeLUT.load CubeLUT.fresh (some cube3DExample)).2 1).r,
          (normalized (CubeLUT.load CubeLUT.fresh (some cube3DExample)).2 1).g,
          (normalized (CubeLUT.load CubeLUT.fresh (some cube3DExample)).2 1).b, F32.fin 1⟩ ∧
      (buffer3D (CubeLUT.load CubeLUT.fresh (some cube3DExample)).2)[
          (1 / (2 * 2)) * (2 * 2) + (1 / 2 % 2) * 2 + 1 % 2]? =
        some ⟨(normalized (CubeLUT.load CubeLUT.fresh (some cube3DExample)).2 4).r,
          (normalized (CubeLUT.load CubeLUT.fresh (some cube3DExample)).2 4).g,
          (normalized (CubeLUT.load CubeLUT.fresh (some cube3DExample)).2 4).b, F32.fin 1⟩ := by
  decide!

/-- C4, amended: for a 3D LUT of size `n` and every file index `i < n³`, with `z = i % n`,
`y = (i / n) % n`, `x = i / n²`, the 3D branch of `ColorLUT::load` stores the normalised sample
of file index `i`, with alpha one, at offset `x + y * n + z * n²` of the output buffer. -/
theorem C4_relayout_destination (self : CubeLUT) (lines : List Line)
    (h : (CubeLUT.load self (some lines)).1 = true)
    (h3 : (CubeLUT.load self (some lines)).2.dimension = 3) (i : Nat)
    (hi : i < (CubeLUT.load self (some lines)).2.size ^ 3) :
    (buffer3D (CubeLUT.load self (some lines)).2)[
        i / ((CubeLUT.load self (some lines)).2.size * (CubeLUT.load self (some lines)).2.size) +
          (i / (CubeLUT.load self (some lines)).2.size % (CubeLUT.load self (some lines)).2.size) *
            (CubeLUT.load self (some lines)).2.size +
          (i % (CubeLUT.load self (some lines)).2.size) *
            ((CubeLUT.load self (some lines)).2.size * (CubeLUT.load self (some lines)).2.size)]? =
      some ⟨(normalized (CubeLUT.load self (some lines)).2 i).r,
        (normalized (CubeLUT.load self (some lines)).2 i).g,
        (normalized (CubeLUT.load self (some lines)).2 i).b, F32.fin 1⟩ := by
  have hs := load_true_shape self lines h
  rcases hs.2.2 with ⟨h1, -⟩ | ⟨-, hcap, h2, h256⟩
  · rw [h1] at h3
    exact absurd h3 (by decide)
  · have := buffer3D_get _ h2 h256 hcap i hi
    rw [(destIndex_eq _ i (by omega) h256 hi).1] at this
    exact this

/-- C4 amended, at a file: in the 3D cube of size 2, file index 1 lands at offset 4. -/
theorem C4_relayout_destination_witness :
    (buffer3D (CubeLUT.load CubeLUT.fresh (some cube3DExample)).2)[1 / (2 * 2) + (1 / 2 % 2) * 2 +
        (1 % 2) * (2 * 2)]? =
      some ⟨(normalized (CubeLUT.load CubeLUT.fresh (some cube3DExample)).2 1).r,
        (normalized (CubeLUT.load CubeLUT.fresh (some cube3DExample)).2 1).g,
        (normalized (CubeLUT.load CubeLUT.fresh (some cube3DExample)).2 1).b, F32.fin 1⟩ := by
  have h := C4_relayout_destination CubeLUT.fresh cube3DExample (by decide!) (by decide!) 1
    (by decide!)
  have hs : (CubeLUT.load CubeLUT.fresh (some cube3DExample)).2.size = 2 := by decide!
  rw [hs] at h
  exact h

/-! ### Normalisation -/

/-- Subtracting zero from a value a `float` can hold returns it: the exact result is a
binary32 value, so rounding leaves it. -/
theorem F32.sub_zero (x : F32) (hx : x.isCanon = true) : F32.sub x (F32.fin 0) = x := by
  cases x with
  | fin a =>
      have e : a - 0 = a := by ring
      have hs : F32.sub (F32.fin a) (F32.fin 0) = F32.ofRat (a - 0) := rfl
      rw [hs, e]
      exact F32.ofRat_of_isBinary32 a hx
  | inf s => rfl
  | nan => rfl

/-- Multiplying a value a `float` can hold by one returns it. -/
theorem F32.mul_one (x : F32) (hx : x.isCanon = true) : F32.mul x (F32.fin 1) = x := by
  cases x with
  | fin a =>
      have e : a * 1 = a := by ring
      have hs : F32.mul (F32.fin a) (F32.fin 1) = F32.ofRat (a * 1) := rfl
      rw [hs, e]
      exact F32.ofRat_of_isBinary32 a hx
  | inf s =>
      have h : ¬ ((1 : ℚ) < 0) := by norm_num
      simp [F32.mul, h]
  | nan => rfl

/-- A sample the second loop pushes is made of values a `float` can hold. -/
theorem parseRow_isCanon (tok : List Char) (iss : IStream) (s : RGB)
    (h : parseRow tok iss = some s) :
    s.r.isCanon = true ∧ s.g.isCanon = true ∧ s.b.isCanon = true := by
  have h0 : (F32.fin 0).isCanon = true := by decide!
  unfold parseRow at h
  split at h
  · rename_i r ptr hfc
    dsimp only at h
    split at h
    · simp only [Option.some.injEq] at h
      rw [← h]
      exact ⟨from_chars_isCanon _ _ _ hfc, readFloat_isCanon _ _ h0, readFloat_isCanon _ _ h0⟩
    · exact absurd h (by simp)
  · exact absurd h (by simp)

theorem rowOfLine_isCanon (line : Line) (s : RGB) (h : rowOfLine line = some s) :
    s.r.isCanon = true ∧ s.g.isCanon = true ∧ s.b.isCanon = true := by
  unfold rowOfLine at h
  dsimp only at h
  split_ifs at h
  exact parseRow_isCanon _ _ s h

theorem acceptedRows_isCanon (lines : List Line) (s : RGB) (h : s ∈ acceptedRows lines) :
    s.r.isCanon = true ∧ s.g.isCanon = true ∧ s.b.isCanon = true := by
  unfold acceptedRows at h
  obtain ⟨l, -, hl⟩ := List.mem_filterMap.1 h
  exact rowOfLine_isCanon l s hl

/-- With `domain_min = 0` and `scale = 1` the normalisation returns the sample itself, the
samples being values a `float` can hold. -/
theorem normalized_identity (cube : CubeLUT)
    (hmin : cube.domain_min = ⟨F32.fin 0, F32.fin 0, F32.fin 0⟩)
    (hs : cube.scale = ⟨F32.fin 1, F32.fin 1, F32.fin 1⟩)
    (hc : ∀ s ∈ cube.data, s.r.isCanon = true ∧ s.g.isCanon = true ∧ s.b.isCanon = true)
    (i : Nat) :
    normalized cube i = cube.data.getD i ⟨F32.fin 0, F32.fin 0, F32.fin 0⟩ := by
  have h0 : (F32.fin 0).isCanon = true := by decide!
  have hcan : (cube.data.getD i ⟨F32.fin 0, F32.fin 0, F32.fin 0⟩).r.isCanon = true ∧
      (cube.data.getD i ⟨F32.fin 0, F32.fin 0, F32.fin 0⟩).g.isCanon = true ∧
      (cube.data.getD i ⟨F32.fin 0, F32.fin 0, F32.fin 0⟩).b.isCanon = true := by
    by_cases hi : i < cube.data.length
    · have hm : cube.data.getD i ⟨F32.fin 0, F32.fin 0, F32.fin 0⟩ ∈ cube.data := by
        rw [List.getD_eq_getElem?_getD, List.getElem?_eq_getElem hi]
        exact List.getElem_mem hi
      exact hc _ hm
    · have hn : cube.data.getD i ⟨F32.fin 0, F32.fin 0, F32.fin 0⟩
          = ⟨F32.fin 0, F32.fin 0, F32.fin 0⟩ := by
        rw [List.getD_eq_getElem?_getD, List.getElem?_eq_none (by omega)]
        rfl
      rw [hn]
      exact ⟨h0, h0, h0⟩
  unfold normalized RGB.mul RGB.sub
  rw [hmin, hs]
  dsimp only
  rw [F32.sub_zero _ hcan.1, F32.sub_zero _ hcan.2.1, F32.sub_zero _ hcan.2.2,
    F32.mul_one _ hcan.1, F32.mul_one _ hcan.2.1, F32.mul_one _ hcan.2.2]

theorem foldl_body1D (cube : CubeLUT) (l : List Nat) (t : Tables) :
    (l.foldl (body1D cube) t).r = l.foldl (fun b j => b.set (id j) (normalized cube j).r) t.r ∧
      (l.foldl (body1D cube) t).g = l.foldl (fun b j => b.set (id j) (normalized cube j).g) t.g ∧
      (l.foldl (body1D cube) t).b = l.foldl (fun b j => b.set (id j) (normalized cube j).b) t.b := by
  induction l generalizing t with
  | nil => exact ⟨rfl, rfl, rfl⟩
  | cons a s ih =>
      rw [List.foldl_cons, List.foldl_cons, List.foldl_cons, List.foldl_cons]
      exact ih (body1D cube t a)

/-- The vectors of `case 1` hold at index `i` the three channels of the normalised sample `i`. -/
theorem tables1D_get (cube : CubeLUT) (i : Nat) (hi : i < cube.capacity) :
    (tables1D cube).r[i]? = some (normalized cube i).r ∧
      (tables1D cube).g[i]? = some (normalized cube i).g ∧
      (tables1D cube).b[i]? = some (normalized cube i).b := by
  have h := foldl_body1D cube (List.range cube.capacity)
    { r := List.replicate cube.capacity (F32.fin 0)
      g := List.replicate cube.capacity (F32.fin 0)
      b := List.replicate cube.capacity (F32.fin 0) }
  unfold tables1D
  rw [h.1, h.2.1, h.2.2]
  have hm : i ∈ List.range cube.capacity := List.mem_range.2 hi
  have hinj : ∀ x ∈ List.range cube.capacity, ∀ y ∈ List.range cube.capacity,
      id x = id y → x = y := fun _ _ _ _ e => e
  have hlt : ∀ x ∈ List.range cube.capacity,
      id x < (List.replicate cube.capacity (F32.fin 0)).length := by
    intro x hx
    rw [List.length_replicate]
    exact List.mem_range.1 hx
  exact ⟨foldl_set_get id (fun j => (normalized cube j).r) _ _ (List.nodup_range _) hinj hlt i hm,
    foldl_set_get id (fun j => (normalized cube j).g) _ _ (List.nodup_range _) hinj hlt i hm,
    foldl_set_get id (fun j => (normalized cube j).b) _ _ (List.nodup_range _) hinj hlt i hm⟩

theorem tables1D_length (cube : CubeLUT) :
    (tables1D cube).r.length = cube.capacity ∧ (tables1D cube).g.length = cube.capacity ∧
      (tables1D cube).b.length = cube.capacity := by
  have h := foldl_body1D cube (List.range cube.capacity)
    { r := List.replicate cube.capacity (F32.fin 0)
      g := List.replicate cube.capacity (F32.fin 0)
      b := List.replicate cube.capacity (F32.fin 0) }
  unfold tables1D
  rw [h.1, h.2.1, h.2.2, foldl_set_length, foldl_set_length, foldl_set_length]
  simp

theorem secondPassStep_domain (c : CubeLUT) (line : Line) (h : isDomainDirective line = false) :
    (secondPassStep c line).domain_min = c.domain_min ∧
      (secondPassStep c line).domain_max = c.domain_max := by
  unfold secondPassStep
  split
  · exact ⟨rfl, rfl⟩
  · rename_i hs
    unfold isDomainDirective at h
    have hs2 : skipLine line = false := by simpa using hs
    rw [hs2] at h
    simp only [Bool.not_false, Bool.true_and, Bool.or_eq_false_iff, decide_eq_false_iff_not] at h
    dsimp only
    rw [if_neg h.1, if_neg h.2]
    split <;> exact ⟨rfl, rfl⟩

theorem secondPass_domain (lines : List Line) (c : CubeLUT)
    (h : ∀ l ∈ lines, isDomainDirective l = false) :
    (secondPass c lines).domain_min = c.domain_min ∧
      (secondPass c lines).domain_max = c.domain_max := by
  induction lines generalizing c with
  | nil => exact ⟨rfl, rfl⟩
  | cons l ls ih =>
      have h1 := secondPassStep_domain c l (h l (List.mem_cons_self l ls))
      have h2 := ih (secondPassStep c l) (fun x hx => h x (List.mem_cons_of_mem l hx))
      exact ⟨h2.1.trans h1.1, h2.2.trans h1.2⟩

/-- The scale a successful load into a fresh object computes: one over the range. -/
theorem load_fresh_scale (lines : List Line)
    (h : (CubeLUT.load CubeLUT.fresh (some lines)).1 = true) :
    (CubeLUT.load CubeLUT.fresh (some lines)).2.scale =
      RGB.div ⟨F32.fin 1, F32.fin 1, F32.fin 1⟩
        (RGB.sub (CubeLUT.load CubeLUT.fresh (some lines)).2.domain_max
          (CubeLUT.load CubeLUT.fresh (some lines)).2.domain_min) := by
  obtain ⟨lines', c1, hf, hp, -, -, -, -, -, heq⟩ := load_true CubeLUT.fresh (some lines) h
  cases hf
  rw [heq]
  dsimp only
  rw [(secondPass_size lines c1).2.2.2, (firstPass_domain lines _ c1 hp).2.2]
  rfl

/-- C5: a cube parsed successfully with `domain_min = (0,0,0)` and `domain_max = (1,1,1)` has
scale `(1,1,1)`, its normalisation `(sample - domain_min) * scale` returns every sample
unchanged, the three vectors of the 1D branch hold the channels of sample `i` at index `i`, and
the buffer of the 3D branch holds sample `i` with alpha one at its destination.  A file
without `DOMAIN_MIN` / `DOMAIN_MAX` lines has this domain. -/
theorem C5_unit_domain_round_trip :
    (∀ (lines : List Line), (CubeLUT.load CubeLUT.fresh (some lines)).1 = true →
      (CubeLUT.load CubeLUT.fresh (some lines)).2.domain_min
        = ⟨F32.fin 0, F32.fin 0, F32.fin 0⟩ →
      (CubeLUT.load CubeLUT.fresh (some lines)).2.domain_max
        = ⟨F32.fin 1, F32.fin 1, F32.fin 1⟩ →
      (CubeLUT.load CubeLUT.fresh (some lines)).2.scale = ⟨F32.fin 1, F32.fin 1, F32.fin 1⟩ ∧
      ∀ i, i < (CubeLUT.load CubeLUT.fresh (some lines)).2.capacity →
        ∃ s : RGB, (CubeLUT.load CubeLUT.fresh (some lines)).2.data[i]? = some s ∧
          normalized (CubeLUT.load CubeLUT.fresh (some lines)).2 i = s ∧
          ((CubeLUT.load CubeLUT.fresh (some lines)).2.dimension = 1 →
            (tables1D (CubeLUT.load CubeLUT.fresh (some lines)).2).r[i]? = some s.r ∧
            (tables1D (CubeLUT.load CubeLUT.fresh (some lines)).2).g[i]? = some s.g ∧
            (tables1D (CubeLUT.load CubeLUT.fresh (some lines)).2).b[i]? = some s.b) ∧
          ((CubeLUT.load CubeLUT.fresh (some lines)).2.dimension = 3 →
            (buffer3D (CubeLUT.load CubeLUT.fresh (some lines)).2)[
              destIndex (CubeLUT.load CubeLUT.fresh (some lines)).2.size
                (((CubeLUT.load CubeLUT.fresh (some lines)).2.size *
                  (CubeLUT.load CubeLUT.fresh (some lines)).2.size) % 4294967296) i]? =
              some ⟨s.r, s.g, s.b, F32.fin 1⟩)) ∧
    (∀ (lines : List Line), (CubeLUT.load CubeLUT.fresh (some lines)).1 = true →
      (∀ l ∈ lines, isDomainDirective l = false) →
      (CubeLUT.load CubeLUT.fresh (some lines)).2.domain_min
          = ⟨F32.fin 0, F32.fin 0, F32.fin 0⟩ ∧
        (CubeLUT.load CubeLUT.fresh (some lines)).2.domain_max
          = ⟨F32.fin 1, F32.fin 1, F32.fin 1⟩) := by
  constructor
  · intro lines h hmin hmax
    have hscale : (CubeLUT.load CubeLUT.fresh (some lines)).2.scale
        = ⟨F32.fin 1, F32.fin 1, F32.fin 1⟩ := by
      rw [load_fresh_scale lines h, hmin, hmax]
      decide!
    refine ⟨hscale, ?_⟩
    intro i hi
    have hs := load_true_shape CubeLUT.fresh lines h
    have hlen : i < (CubeLUT.load CubeLUT.fresh (some lines)).2.data.length := by
      rw [hs.2.1]; exact hi
    have hcanon : ∀ s ∈ (CubeLUT.load CubeLUT.fresh (some lines)).2.data,
        s.r.isCanon = true ∧ s.g.isCanon = true ∧ s.b.isCanon = true := by
      intro s hmem
      rw [hs.1] at hmem
      exact acceptedRows_isCanon lines s hmem
    have hid := normalized_identity _ hmin hscale hcanon i
    have hget : (CubeLUT.load CubeLUT.fresh (some lines)).2.data[i]? =
        some ((CubeLUT.load CubeLUT.fresh (some lines)).2.data.getD i
          ⟨F32.fin 0, F32.fin 0, F32.fin 0⟩) := by
      rw [List.getD_eq_getElem?_getD, List.getElem?_eq_getElem hlen]
      rfl
    refine ⟨_, hget, hid, ?_, ?_⟩
    · intro _
      have ht := tables1D_get _ i hi
      rw [hid] at ht
      exact ht
    · intro h3
      rcases hs.2.2 with ⟨h1, -⟩ | ⟨-, hcap, h2, h256⟩
      · rw [h1] at h3
        exact absurd h3 (by decide)
      · have hb := buffer3D_get _ h2 h256 hcap i (by rw [← hcap]; exact hi)
        rw [hid] at hb
        exact hb
  · intro lines h hno
    obtain ⟨lines', c1, hf, hp, -, -, -, -, -, heq⟩ := load_true CubeLUT.fresh (some lines) h
    cases hf
    have hd := firstPass_domain lines _ c1 hp
    have hd2 := secondPass_domain lines c1 hno
    rw [heq]
    dsimp only
    rw [hd2.1, hd2.2, hd.1, hd.2.1]
    exact ⟨rfl, rfl⟩

/-- C5, at a file: a 1D table without domain lines loads with scale one and its second sample
is returned unchanged. -/
theorem C5_unit_domain_round_trip_witness :
    (CubeLUT.load CubeLUT.fresh
        (some (["LUT_1D_SIZE 2", "0 0 0", "0.5 0.25 1"].map String.toList))).1 = true ∧
      (CubeLUT.load CubeLUT.fresh
        (some (["LUT_1D_SIZE 2", "0 0 0", "0.5 0.25 1"].map String.toList))).2.scale
          = ⟨F32.fin 1, F32.fin 1, F32.fin 1⟩ :=
  ⟨by decide!,
    (C5_unit_domain_round_trip.1 (["LUT_1D_SIZE 2", "0 0 0", "0.5 0.25 1"].map String.toList)
      (by decide!) (by decide!) (by decide!)).1⟩

/-! ### The cache -/

theorem cacheFind_append_miss (cache : List (String × LUT)) (path : String) (lut : LUT)
    (h : cacheFind cache path = none) : cacheFind (cache ++ [(path, lut)]) path = some lut := by
  induction cache with
  | nil => simp [cacheFind]
  | cons kv rest ih =>
      obtain ⟨k, v⟩ := kv
      rw [List.cons_append]
      unfold cacheFind at h ⊢
      by_cases hk : k = path
      · rw [if_pos hk] at h
        exact absurd h (by simp)
      · rw [if_neg hk] at h ⊢
        exact ih h

theorem cacheFind_erase_self (cache : List (String × LUT)) (path : String) :
    cacheFind (cacheErase cache path) path = none := by
  induction cache with
  | nil => rfl
  | cons kv rest ih =>
      obtain ⟨k, v⟩ := kv
      unfold cacheErase
      by_cases hk : k = path
      · rw [if_pos hk]; exact ih
      · rw [if_neg hk]
        unfold cacheFind
        rw [if_neg hk]
        exact ih

theorem cacheFind_erase_other (cache : List (String × LUT)) (path q : String) (h : q ≠ path) :
    cacheFind (cacheErase cache path) q = cacheFind cache q := by
  induction cache with
  | nil => rfl
  | cons kv rest ih =>
      obtain ⟨k, v⟩ := kv
      unfold cacheErase
      by_cases hk : k = path
      · rw [if_pos hk]
        have hkq : ¬ k = q := fun e => h (e ▸ hk)
        conv_rhs => unfold cacheFind
        rw [if_neg hkq]
        exact ih
      · rw [if_neg hk]
        unfold cacheFind
        by_cases hkq : k = q
        · rw [if_pos hkq, if_pos hkq]
        · rw [if_neg hkq, if_neg hkq]
          exact ih

theorem cacheErase_absent (cache : List (String × LUT)) (path : String)
    (h : cacheFind cache path = none) : cacheErase cache path = cache := by
  induction cache with
  | nil => rfl
  | cons kv rest ih =>
      obtain ⟨k, v⟩ := kv
      unfold cacheFind at h
      unfold cacheErase
      by_cases hk : k = path
      · rw [if_pos hk] at h
        exact absurd h (by simp)
      · rw [if_neg hk] at h
        rw [if_neg hk, ih h]

theorem parseCount_backend (path : String) (trace : List Event) (calls : List BackendCall) :
    parseCount path (trace ++ calls.map Event.backend) = parseCount path trace := by
  unfold parseCount
  rw [List.count_append]
  have : List.count (Event.parse path) (calls.map Event.backend) = 0 := by
    rw [List.count_eq_zero]
    intro hm
    obtain ⟨c, -, hc⟩ := List.mem_map.1 hm
    exact absurd hc (by simp)
  omega

/-- The branch `case 1` leaves the cache alone, records only Direct2D calls, never ends in
`return false`, and reaches its `break` only if every call succeeded. -/
theorem load1D_effect (env : Env) (s : ColorLUT) (lut : LUT) (cube : CubeLUT) :
    (load1D env s lut cube).2.1.cache = s.cache ∧
      (load1D env s lut cube).1 ≠ Outcome.ret false ∧
      ∃ calls, (load1D env s lut cube).2.1.trace = s.trace ++ calls.map Event.backend ∧
        ((load1D env s lut cube).1 = Outcome.ret true → backendAllOk env s.trace calls = true) := by
  unfold load1D ColorLUT.call
  dsimp only
  by_cases h1 : env.backend s.trace BackendCall.createTableTransfer = true
  · by_cases h2 : env.backend (s.trace ++ [Event.backend BackendCall.createTableTransfer])
        BackendCall.setRedTable = true
    · by_cases h3 : env.backend (s.trace ++ [Event.backend BackendCall.createTableTransfer] ++
          [Event.backend BackendCall.setRedTable]) BackendCall.setGreenTable = true
      · by_cases h4 : env.backend (s.trace ++ [Event.backend BackendCall.createTableTransfer] ++
            [Event.backend BackendCall.setRedTable] ++ [Event.backend BackendCall.setGreenTable])
            BackendCall.setBlueTable = true
        · simp only [h1, h2, h3, h4, Bool.not_true, Bool.false_eq_true, if_false]
          refine ⟨by simp, by simp, [BackendCall.createTableTransfer, BackendCall.setRedTable,
            BackendCall.setGreenTable, BackendCall.setBlueTable], by simp, ?_⟩
          intro _
          simp only [backendAllOk, h1, h2, h3, h4, Bool.and_self]
        · simp only [h1, h2, h3, h4, Bool.not_true, Bool.false_eq_true, if_false, Bool.not_false,
            if_true]
          exact ⟨by simp, by simp, [BackendCall.createTableTransfer, BackendCall.setRedTable,
            BackendCall.setGreenTable, BackendCall.setBlueTable], by simp, by simp⟩
      · simp only [h1, h2, h3, Bool.not_true, Bool.false_eq_true, if_false, Bool.not_false,
          if_true]
        exact ⟨by simp, by simp, [BackendCall.createTableTransfer, BackendCall.setRedTable,
          BackendCall.setGreenTable], by simp, by simp⟩
    · simp only [h1, h2, Bool.not_true, Bool.false_eq_true, if_false, Bool.not_false, if_true]
      exact ⟨by simp, by simp, [BackendCall.createTableTransfer, BackendCall.setRedTable], by simp,
        by simp⟩
  · simp only [h1, Bool.not_false, if_true]
    exact ⟨by simp, by simp, [BackendCall.createTableTransfer], by simp, by simp⟩

/-- The branch `case 3` leaves the cache alone, records only Direct2D calls, never ends in
`return false`, and reaches its `break` only if every call succeeded. -/
theorem load3D_effect (env : Env) (s : ColorLUT) (lut : LUT) (cube : CubeLUT) :
    (load3D env s lut cube).2.1.cache = s.cache ∧
      (load3D env s lut cube).1 ≠ Outcome.ret false ∧
      ∃ calls, (load3D env s lut cube).2.1.trace = s.trace ++ calls.map Event.backend ∧
        ((load3D env s lut cube).1 = Outcome.ret true → backendAllOk env s.trace calls = true) := by
  unfold load3D ColorLUT.call
  dsimp only
  by_cases h1 : env.backend s.trace BackendCall.createLookupTable3D = true
  · by_cases h2 : env.backend (s.trace ++ [Event.backend BackendCall.createLookupTable3D])
        BackendCall.createLookupTable3DEffect = true
    · by_cases h3 : env.backend (s.trace ++ [Event.backend BackendCall.createLookupTable3D] ++
          [Event.backend BackendCall.createLookupTable3DEffect]) BackendCall.setLookupTable = true
      · simp only [h1, h2, h3, Bool.not_true, Bool.false_eq_true, if_false]
        refine ⟨by simp, by simp, [BackendCall.createLookupTable3D,
          BackendCall.createLookupTable3DEffect, BackendCall.setLookupTable], by simp, ?_⟩
        intro _
        simp only [backendAllOk, h1, h2, h3, Bool.and_self]
      · simp only [h1, h2, h3, Bool.not_true, Bool.false_eq_true, if_false, Bool.not_false,
          if_true]
        exact ⟨by simp, by simp, [BackendCall.createLookupTable3D,
          BackendCall.createLookupTable3DEffect, BackendCall.setLookupTable], by simp, by simp⟩
    · simp only [h1, h2, Bool.not_true, Bool.false_eq_true, if_false, Bool.not_false, if_true]
      exact ⟨by simp, by simp, [BackendCall.createLookupTable3D,
        BackendCall.createLookupTable3DEffect], by simp, by simp⟩
  · simp only [h1, Bool.not_false, if_true]
    exact ⟨by simp, by simp, [BackendCall.createLookupTable3D], by simp, by simp⟩

theorem finishLoad_true (path : String) (r : Outcome × ColorLUT × LUT)
    (h : r.1 = Outcome.ret true) :
    finishLoad path r =
      { outcome := Outcome.ret true
        self := { r.2.1 with cache := cacheEmplace r.2.1.cache path r.2.2 }
        lut := r.2.2 } := by
  unfold finishLoad
  rw [h]

theorem finishLoad_other (path : String) (r : Outcome × ColorLUT × LUT)
    (h : r.1 ≠ Outcome.ret true) :
    finishLoad path r = { outcome := r.1, self := r.2.1, lut := r.2.2 } := by
  unfold finishLoad
  split
  · rename_i heq
    exact absurd heq h
  · rfl

/-- What one of the two branches followed by the code after the `switch` does, started from
an object whose cache lacks the path. -/
theorem finishLoad_effect (env : Env) (s : ColorLUT) (path : String)
    (r : Outcome × ColorLUT × LUT) (hmiss : cacheFind s.cache path = none)
    (hc : r.2.1.cache = s.cache) (hf : r.1 ≠ Outcome.ret false)
    (ht : ∃ calls, r.2.1.trace = s.trace ++ calls.map Event.backend ∧
      (r.1 = Outcome.ret true → backendAllOk env s.trace calls = true)) :
    (finishLoad path r).outcome ≠ Outcome.ret false ∧
    ∃ calls, (finishLoad path r).self.trace = s.trace ++ calls.map Event.backend ∧
      ((finishLoad path r).outcome = Outcome.ret true →
        (finishLoad path r).self.cache = s.cache ++ [(path, (finishLoad path r).lut)] ∧
          backendAllOk env s.trace calls = true) ∧
      ((finishLoad path r).outcome ≠ Outcome.ret true →
        (finishLoad path r).self.cache = s.cache) := by
  obtain ⟨calls, htr, hok⟩ := ht
  by_cases h : r.1 = Outcome.ret true
  · rw [finishLoad_true path r h]
    refine ⟨by simp, calls, htr, ?_, ?_⟩
    · intro _
      refine ⟨?_, hok h⟩
      dsimp only
      rw [hc]
      unfold cacheEmplace
      rw [hmiss]
    · intro hne
      exact absurd rfl hne
  · rw [finishLoad_other path r h]
    refine ⟨hf, calls, htr, ?_, ?_⟩
    · intro h2
      exact absurd h2 h
    · intro _
      exact hc

/-- What `ColorLUT::load` does on a miss: the parser runs once, then Direct2D calls follow;
the cache gains the entry for the path exactly when the call returns true, and then the parse
and every Direct2D call had succeeded. -/
theorem load_miss (env : Env) (self : ColorLUT) (path : String) (lut : LUT)
    (hmiss : cacheFind self.cache path = none) :
    ∃ calls, (ColorLUT.load env self path lut).self.trace =
        self.trace ++ Event.parse path :: calls.map Event.backend ∧
      ((ColorLUT.load env self path lut).outcome = Outcome.ret true →
        (ColorLUT.load env self path lut).self.cache =
            self.cache ++ [(path, (ColorLUT.load env self path lut).lut)] ∧
          (CubeLUT.load CubeLUT.fresh (env.fs path)).1 = true ∧
          backendAllOk env (self.trace ++ [Event.parse path]) calls = true) ∧
      ((ColorLUT.load env self path lut).outcome ≠ Outcome.ret true →
        (ColorLUT.load env self path lut).self.cache = self.cache) := by
  unfold ColorLUT.load
  rw [hmiss]
  dsimp only
  by_cases hp : (CubeLUT.load CubeLUT.fresh (env.fs path)).1 = true
  · rw [hp]
    simp only [Bool.not_true, Bool.false_eq_true, if_false]
    by_cases h1 : (CubeLUT.load CubeLUT.fresh (env.fs path)).2.dimension = 1
    · rw [if_pos h1]
      have e := load1D_effect env { self with trace := self.trace ++ [Event.parse path] } lut
        (CubeLUT.load CubeLUT.fresh (env.fs path)).2
      obtain ⟨-, calls, htr, hT, hF⟩ := finishLoad_effect env
        { self with trace := self.trace ++ [Event.parse path] } path _ hmiss e.1 e.2.1 e.2.2
      refine ⟨calls, by rw [htr]; simp, ?_, hF⟩
      intro h
      exact ⟨(hT h).1, trivial, (hT h).2⟩
    · rw [if_neg h1]
      by_cases h3 : (CubeLUT.load CubeLUT.fresh (env.fs path)).2.dimension = 3
      · rw [if_pos h3]
        have e := load3D_effect env { self with trace := self.trace ++ [Event.parse path] } lut
          (CubeLUT.load CubeLUT.fresh (env.fs path)).2
        obtain ⟨-, calls, htr, hT, hF⟩ := finishLoad_effect env
          { self with trace := self.trace ++ [Event.parse path] } path _ hmiss e.1 e.2.1 e.2.2
        refine ⟨calls, by rw [htr]; simp, ?_, hF⟩
        intro h
        exact ⟨(hT h).1, trivial, (hT h).2⟩
      · rw [if_neg h3]
        exact ⟨[], by simp, by simp, by simp⟩
  · have hp2 : (CubeLUT.load CubeLUT.fresh (env.fs path)).1 = false := by simpa using hp
    rw [hp2]
    simp only [Bool.not_false, if_true]
    exact ⟨[], by simp, by simp, by simp⟩

/-- A hit returns the stored `LUT` and changes nothing. -/
theorem load_hit (env : Env) (self : ColorLUT) (path : String) (lut hit : LUT)
    (h : cacheFind self.cache path = some hit) :
    ColorLUT.load env self path lut = { outcome := Outcome.ret true, self := self, lut := hit } := by
  unfold ColorLUT.load
  rw [h]

/-- After a call that returned true the path is in the cache, with the `LUT` the call gave. -/
theorem load_true_cached (env : Env) (self : ColorLUT) (path : String) (lut : LUT)
    (h : (ColorLUT.load env self path lut).outcome = Outcome.ret true) :
    cacheFind (ColorLUT.load env self path lut).self.cache path =
      some (ColorLUT.load env self path lut).lut := by
  cases hf : cacheFind self.cache path with
  | some hit =>
      rw [load_hit env self path lut hit hf]
      exact hf
  | none =>
      obtain ⟨calls, -, hT, -⟩ := load_miss env self path lut hf
      rw [(hT h).1]
      exact cacheFind_append_miss _ _ _ hf

theorem loadTimes_cached (env : Env) (path : String) (n : Nat) (lut2 hit : LUT) (s : ColorLUT)
    (h : cacheFind s.cache path = some hit) : loadTimes env path lut2 n s = s := by
  induction n with
  | zero => rfl
  | succ k ih =>
      unfold loadTimes
      rw [load_hit env s path lut2 hit h]
      exact ih

theorem load_miss_parseCount (env : Env) (self : ColorLUT) (path : String) (lut : LUT)
    (hmiss : cacheFind self.cache path = none) :
    parseCount path (ColorLUT.load env self path lut).self.trace
      = parseCount path self.trace + 1 := by
  obtain ⟨calls, htr, -, -⟩ := load_miss env self path lut hmiss
  rw [htr]
  have e : self.trace ++ Event.parse path :: calls.map Event.backend =
      (self.trace ++ [Event.parse path]) ++ calls.map Event.backend := by simp
  rw [e, parseCount_backend]
  unfold parseCount
  rw [List.count_append]
  simp

/-- C6: when the cache holds an entry for the path, `ColorLUT::load` returns true with exactly
the stored `LUT`, records neither a run of the parser nor a Direct2D call, and leaves the cache
as it was. -/
theorem C6_cache_hit_returns_stored (env : Env) (self : ColorLUT) (path : String) (lut hit : LUT)
    (h : cacheFind self.cache path = some hit) :
    (ColorLUT.load env self path lut).outcome = Outcome.ret true ∧
      (ColorLUT.load env self path lut).lut = hit ∧
      (ColorLUT.load env self path lut).self.cache = self.cache ∧
      (ColorLUT.load env self path lut).self.trace = self.trace := by
  rw [load_hit env self path lut hit h]
  exact ⟨rfl, rfl, rfl, rfl⟩

/-- C6, at a cache that holds `a.cube`: the call returns the stored `LUT` and records nothing. -/
theorem C6_cache_hit_returns_stored_witness :
    cacheFind [("a.cube", ({ dimension := 3, _1d := none, _3d := none } : LUT))] "a.cube" =
        some { dimension := 3, _1d := none, _3d := none } ∧
      (ColorLUT.load envEmptyFiles
        { cache := [("a.cube", { dimension := 3, _1d := none, _3d := none })], trace := [] }
        "a.cube" LUT.empty).lut = { dimension := 3, _1d := none, _3d := none } ∧
      (ColorLUT.load envEmptyFiles
        { cache := [("a.cube", { dimension := 3, _1d := none, _3d := none })], trace := [] }
        "a.cube" LUT.empty).self.trace = [] :=
  ⟨by decide!,
    (C6_cache_hit_returns_stored envEmptyFiles
      { cache := [("a.cube", { dimension := 3, _1d := none, _3d := none })], trace := [] }
      "a.cube" LUT.empty { dimension := 3, _1d := none, _3d := none } (by decide!)).2.1,
    (C6_cache_hit_returns_stored envEmptyFiles
      { cache := [("a.cube", { dimension := 3, _1d := none, _3d := none })], trace := [] }
      "a.cube" LUT.empty { dimension := 3, _1d := none, _3d := none } (by decide!)).2.2.2⟩

/-- C7 as stated fails: two calls in a row for an unchanged file that does not parse run the
parser twice, and so do two calls for a file that parses while the device rejects the
compile. -/
theorem C7_counterexample :
    (ColorLUT.load envEmptyFiles ColorLUT.initial "a.cube" LUT.empty).outcome
        = Outcome.ret false ∧
      parseCount "a.cube"
        (loadTimes envEmptyFiles "a.cube" LUT.empty 2 ColorLUT.initial).trace = 2 ∧
      (ColorLUT.load envCube3DNoDevice ColorLUT.initial "a.cube" LUT.empty).outcome
        = Outcome.threw "ID2D1DeviceContext2::CreateLookupTable3D failed" ∧
      parseCount "a.cube"
        (loadTimes envCube3DNoDevice "a.cube" LUT.empty 2 ColorLUT.initial).trace = 2 := by
  decide!

/-- C7, amended: once `ColorLUT::load` has returned true for a path, any number of further
calls for that path on the unchanged object change nothing: they return the cached `LUT`
and run neither the parser nor a Direct2D call, so the parser has run at most once for the path
over the whole sequence, and exactly once when the path was not cached at the start.  A call
that does not return true caches nothing, and the next call parses again. -/
theorem C7_parse_once_after_success :
    (∀ (env : Env) (self : ColorLUT) (path : String) (lut : LUT),
      (ColorLUT.load env self path lut).outcome = Outcome.ret true →
      (∀ lut2, ColorLUT.load env (ColorLUT.load env self path lut).self path lut2 =
        { outcome := Outcome.ret true
          self := (ColorLUT.load env self path lut).self
          lut := (ColorLUT.load env self path lut).lut }) ∧
      (∀ n lut2, loadTimes env path lut2 n (ColorLUT.load env self path lut).self =
        (ColorLUT.load env self path lut).self) ∧
      (∀ n lut2,
        parseCount path (loadTimes env path lut2 n (ColorLUT.load env self path lut).self).trace
          ≤ parseCount path self.trace + 1) ∧
      (cacheFind self.cache path = none → ∀ n lut2,
        parseCount path (loadTimes env path lut2 n (ColorLUT.load env self path lut).self).trace
          = parseCount path self.trace + 1)) ∧
    (∀ (env : Env) (self : ColorLUT) (path : String) (lut lut2 : LUT),
      cacheFind self.cache path = none →
      (ColorLUT.load env self path lut).outcome ≠ Outcome.ret true →
      parseCount path (ColorLUT.load env (ColorLUT.load env self path lut).self path lut2).self.trace
        = parseCount path self.trace + 2) := by
  constructor
  · intro env self path lut h
    have hc := load_true_cached env self path lut h
    have hfix : ∀ n lut2, loadTimes env path lut2 n (ColorLUT.load env self path lut).self =
        (ColorLUT.load env self path lut).self :=
      fun n lut2 => loadTimes_cached env path n lut2 _ _ hc
    refine ⟨fun lut2 => load_hit env _ path lut2 _ hc, hfix, ?_, ?_⟩
    · intro n lut2
      rw [hfix]
      cases hf : cacheFind self.cache path with
      | some hit =>
          rw [load_hit env self path lut hit hf]
          exact Nat.le_succ _
      | none =>
          rw [load_miss_parseCount env self path lut hf]
    · intro hmiss n lut2
      rw [hfix]
      exact load_miss_parseCount env self path lut hmiss
  · intro env self path lut lut2 hmiss hne
    obtain ⟨calls, -, -, hF⟩ := load_miss env self path lut hmiss
    have hmiss2 : cacheFind (ColorLUT.load env self path lut).self.cache path = none := by
      rw [hF hne]
      exact hmiss
    rw [load_miss_parseCount env _ path lut2 hmiss2, load_miss_parseCount env self path lut hmiss]

/-- C7 amended, at a file: the 3D example compiles on the first call, and after three more
calls the parser has run once. -/
theorem C7_parse_once_after_success_witness :
    (ColorLUT.load envCube3D ColorLUT.initial "a.cube" LUT.empty).outcome = Outcome.ret true ∧
      parseCount "a.cube"
        (loadTimes envCube3D "a.cube" LUT.empty 3
          (ColorLUT.load envCube3D ColorLUT.initial "a.cube" LUT.empty).self).trace
        = parseCount "a.cube" ColorLUT.initial.trace + 1 :=
  ⟨by decide!,
    (C7_parse_once_after_success.1 envCube3D ColorLUT.initial "a.cube" LUT.empty
      (by decide!)).2.2.2 (by decide!) 3 LUT.empty⟩

/-- C8: if `ColorLUT::load` does not return true (it returns false because the file cannot be
opened or does not parse, or a Direct2D call fails and it throws), the cache afterwards equals
the cache before.  The cache changes only in a call that returns true, and then the path was
absent, the parse succeeded, every Direct2D call of the call succeeded, and the one new entry
is the path with the returned `LUT`. -/
theorem C8_failure_leaves_cache_unchanged (env : Env) (self : ColorLUT) (path : String)
    (lut : LUT) :
    ((ColorLUT.load env self path lut).outcome ≠ Outcome.ret true →
      (ColorLUT.load env self path lut).self.cache = self.cache) ∧
    ((ColorLUT.load env self path lut).self.cache ≠ self.cache →
      (ColorLUT.load env self path lut).outcome = Outcome.ret true ∧
      cacheFind self.cache path = none ∧
      (CubeLUT.load CubeLUT.fresh (env.fs path)).1 = true ∧
      (ColorLUT.load env self path lut).self.cache =
        self.cache ++ [(path, (ColorLUT.load env self path lut).lut)] ∧
      ∃ calls, backendAllOk env (self.trace ++ [Event.parse path]) calls = true ∧
        (ColorLUT.load env self path lut).self.trace =
          self.trace ++ Event.parse path :: calls.map Event.backend) := by
  cases hf : cacheFind self.cache path with
  | some hit =>
      rw [load_hit env self path lut hit hf]
      exact ⟨fun _ => rfl, fun h => absurd rfl h⟩
  | none =>
      obtain ⟨calls, htr, hT, hF⟩ := load_miss env self path lut hf
      refine ⟨hF, ?_⟩
      intro hne
      by_cases ho : (ColorLUT.load env self path lut).outcome = Outcome.ret true
      · exact ⟨ho, rfl, (hT ho).2.1, (hT ho).1, calls, (hT ho).2.2, htr⟩
      · exact absurd (hF ho) hne

/-- C8, at two failures: a file that does not parse and a device that rejects the compile
both leave the cache as it was. -/
theorem C8_failure_leaves_cache_unchanged_witness :
    (ColorLUT.load envEmptyFiles ColorLUT.initial "a.cube" LUT.empty).outcome
        ≠ Outcome.ret true ∧
      (ColorLUT.load envEmptyFiles ColorLUT.initial "a.cube" LUT.empty).self.cache
        = ColorLUT.initial.cache ∧
      (ColorLUT.load envCube3DNoDevice ColorLUT.initial "a.cube" LUT.empty).self.cache
        = ColorLUT.initial.cache :=
  ⟨by decide!,
    (C8_failure_leaves_cache_unchanged envEmptyFiles ColorLUT.initial "a.cube" LUT.empty).1
      (by decide!),
    (C8_failure_leaves_cache_unchanged envCube3DNoDevice ColorLUT.initial "a.cube" LUT.empty).1
      (by decide!)⟩

/-- C9: `ColorLUT::reload(p)` yields a cache without `p` in which every other path has the
entry it had before, records nothing, and changes nothing at all when `p` was absent; so
reloading another path leaves the entry of `p` alone.  The next `load(p)` after `reload(p)` is
a miss: it runs the parser once more. -/
theorem C9_reload_erases_only_path (self : ColorLUT) (p : String) :
    cacheFind (ColorLUT.reload self p).cache p = none ∧
    (∀ q, q ≠ p → cacheFind (ColorLUT.reload self p).cache q = cacheFind self.cache q) ∧
    (∀ q, q ≠ p → cacheFind (ColorLUT.reload self q).cache p = cacheFind self.cache p) ∧
    (cacheFind self.cache p = none → ColorLUT.reload self p = self) ∧
    (ColorLUT.reload self p).trace = self.trace ∧
    (∀ (env : Env) (lut : LUT),
      parseCount p (ColorLUT.load env (ColorLUT.reload self p) p lut).self.trace
        = parseCount p self.trace + 1) := by
  refine ⟨cacheFind_erase_self _ _, fun q hq => cacheFind_erase_other _ _ _ hq,
    fun q hq => cacheFind_erase_other _ _ _ (Ne.symm hq), ?_, rfl, ?_⟩
  · intro h
    unfold ColorLUT.reload
    rw [cacheErase_absent _ _ h]
  · intro env lut
    exact load_miss_parseCount env (ColorLUT.reload self p) p lut (cacheFind_erase_self _ _)

/-- C9, at a cache holding `a.cube` and `b.cube`: reloading `b.cube` keeps the entry of
`a.cube`, and a reload of an absent path changes nothing. -/
theorem C9_reload_erases_only_path_witness :
    cacheFind
        (ColorLUT.reload
          { cache := [("a.cube", { dimension := 3, _1d := none, _3d := none }),
              ("b.cube", { dimension := 1, _1d := none, _3d := none })],
            trace := [] } "b.cube").cache "a.cube"
      = cacheFind [("a.cube", ({ dimension := 3, _1d := none, _3d := none } : LUT)),
          ("b.cube", { dimension := 1, _1d := none, _3d := none })] "a.cube" ∧
      ColorLUT.reload ColorLUT.initial "a.cube" = ColorLUT.initial :=
  ⟨(C9_reload_erases_only_path
      { cache := [("a.cube", { dimension := 3, _1d := none, _3d := none }),
          ("b.cube", { dimension := 1, _1d := none, _3d := none })],
        trace := [] } "b.cube").2.1 "a.cube" (by decide!),
    (C9_reload_erases_only_path ColorLUT.initial "a.cube").2.2.2.1 (by decide!)⟩

/-! ### Data rows -/

/-- When `case 1` reaches its `break`, `lut` has dimension 1 and its effect holds the three
vectors, each with the byte size `capacity * sizeof(float)`. -/
theorem load1D_true (env : Env) (s : ColorLUT) (lut : LUT) (cube : CubeLUT)
    (h : (load1D env s lut cube).1 = Outcome.ret true) :
    (load1D env s lut cube).2.2 =
      { lut with
        dimension := 1
        _1d := some (Effect.tableTransfer
          (some ⟨(tables1D cube).r, (cube.capacity * 4) % 4294967296⟩)
          (some ⟨(tables1D cube).g, (cube.capacity * 4) % 4294967296⟩)
          (some ⟨(tables1D cube).b, (cube.capacity * 4) % 4294967296⟩)) } := by
  unfold load1D ColorLUT.call at h ⊢
  dsimp only at h ⊢
  split_ifs at h ⊢
  rfl

/-- When `case 3` reaches its `break`, `lut` has dimension 3 and its effect holds the lookup
table made from the re-laid buffer. -/
theorem load3D_true (env : Env) (s : ColorLUT) (lut : LUT) (cube : CubeLUT)
    (h : (load3D env s lut cube).1 = Outcome.ret true) :
    (load3D env s lut cube).2.2 =
      { lut with
        dimension := 3
        _3d := some (Effect.lookupTable3D (some (lookupTableOf cube))) } := by
  unfold load3D ColorLUT.call at h ⊢
  dsimp only at h ⊢
  split_ifs at h ⊢
  rfl

theorem finishLoad_outcome (path : String) (r : Outcome × ColorLUT × LUT) :
    (finishLoad path r).outcome = r.1 ∧ (finishLoad path r).lut = r.2.2 := by
  by_cases h : r.1 = Outcome.ret true
  · rw [finishLoad_true path r h]
    exact ⟨h.symm, rfl⟩
  · rw [finishLoad_other path r h]
    exact ⟨rfl, rfl⟩

/-- The `LUT` a miss returns with `true`: the parse succeeded with dimension 1 or 3 and the
`LUT` is the one built by the branch of that dimension. -/
theorem load_miss_true_lut (env : Env) (self : ColorLUT) (path : String) (lut : LUT)
    (hmiss : cacheFind self.cache path = none)
    (h : (ColorLUT.load env self path lut).outcome = Outcome.ret true) :
    (CubeLUT.load CubeLUT.fresh (env.fs path)).1 = true ∧
    (((CubeLUT.load CubeLUT.fresh (env.fs path)).2.dimension = 1 ∧
        (ColorLUT.load env self path lut).lut =
          { lut with
            dimension := 1
            _1d := some (Effect.tableTransfer
              (some ⟨(tables1D (CubeLUT.load CubeLUT.fresh (env.fs path)).2).r,
                ((CubeLUT.load CubeLUT.fresh (env.fs path)).2.capacity * 4) % 4294967296⟩)
              (some ⟨(tables1D (CubeLUT.load CubeLUT.fresh (env.fs path)).2).g,
                ((CubeLUT.load CubeLUT.fresh (env.fs path)).2.capacity * 4) % 4294967296⟩)
              (some ⟨(tables1D (CubeLUT.load CubeLUT.fresh (env.fs path)).2).b,
                ((CubeLUT.load CubeLUT.fresh (env.fs path)).2.capacity * 4) % 4294967296⟩)) }) ∨
      ((CubeLUT.load CubeLUT.fresh (env.fs path)).2.dimension = 3 ∧
        (ColorLUT.load env self path lut).lut =
          { lut with
            dimension := 3
            _3d := some (Effect.lookupTable3D
              (some (lookupTableOf (CubeLUT.load CubeLUT.fresh (env.fs path)).2))) })) := by
  unfold ColorLUT.load at h ⊢
  rw [hmiss] at h ⊢
  dsimp only at h ⊢
  by_cases hp : (CubeLUT.load CubeLUT.fresh (env.fs path)).1 = true
  · refine ⟨hp, ?_⟩
    rw [hp] at h ⊢
    simp only [Bool.not_true, Bool.false_eq_true, if_false] at h ⊢
    by_cases h1 : (CubeLUT.load CubeLUT.fresh (env.fs path)).2.dimension = 1
    · rw [if_pos h1] at h ⊢
      left
      refine ⟨h1, ?_⟩
      rw [(finishLoad_outcome path _).1] at h
      rw [(finishLoad_outcome path _).2]
      exact load1D_true env _ lut _ h
    · rw [if_neg h1] at h ⊢
      by_cases h3 : (CubeLUT.load CubeLUT.fresh (env.fs path)).2.dimension = 3
      · rw [if_pos h3] at h ⊢
        right
        refine ⟨h3, ?_⟩
        rw [(finishLoad_outcome path _).1] at h
        rw [(finishLoad_outcome path _).2]
        exact load3D_true env _ lut _ h
      · rw [if_neg h3] at h
        exact absurd h (by simp)
  · have hp2 : (CubeLUT.load CubeLUT.fresh (env.fs path)).1 = false := by simpa using hp
    rw [hp2] at h
    simp only [Bool.not_false, if_true] at h
    exact absurd h (by simp)

/-- C11: for a successfully parsed 1D cube of size `n`, the three vectors built by `case 1` of
`ColorLUT::load` each have length `n`, and at every index `i < n` they hold
`(s_i.c - domain_min.c) * (1 / (domain_max.c - domain_min.c))` for the red, green and blue
channel `c` of the `i`-th accepted data row `s_i`; a call of `ColorLUT::load` that misses the
cache and returns true hands exactly these vectors to the table-transfer effect. -/
theorem C11_tables_of_1D_cube (env : Env) (self : ColorLUT) (path : String) (lut : LUT)
    (lines : List Line) (hfs : env.fs path = some lines)
    (h : (CubeLUT.load CubeLUT.fresh (some lines)).1 = true)
    (h1 : (CubeLUT.load CubeLUT.fresh (some lines)).2.dimension = 1) :
    (tables1D (CubeLUT.load CubeLUT.fresh (some lines)).2).r.length
      = (CubeLUT.load CubeLUT.fresh (some lines)).2.size ∧
    (tables1D (CubeLUT.load CubeLUT.fresh (some lines)).2).g.length
      = (CubeLUT.load CubeLUT.fresh (some lines)).2.size ∧
    (tables1D (CubeLUT.load CubeLUT.fresh (some lines)).2).b.length
      = (CubeLUT.load CubeLUT.fresh (some lines)).2.size ∧
    (∀ i, i < (CubeLUT.load CubeLUT.fresh (some lines)).2.size →
      ∃ s : RGB, (acceptedRows lines)[i]? = some s ∧
        (tables1D (CubeLUT.load CubeLUT.fresh (some lines)).2).r[i]? =
          some (F32.mul (F32.sub s.r (CubeLUT.load CubeLUT.fresh (some lines)).2.domain_min.r)
            (F32.div (F32.fin 1)
              (F32.sub (CubeLUT.load CubeLUT.fresh (some lines)).2.domain_max.r
                (CubeLUT.load CubeLUT.fresh (some lines)).2.domain_min.r))) ∧
        (tables1D (CubeLUT.load CubeLUT.fresh (some lines)).2).g[i]? =
          some (F32.mul (F32.sub s.g (CubeLUT.load CubeLUT.fresh (some lines)).2.domain_min.g)
            (F32.div (F32.fin 1)
              (F32.sub (CubeLUT.load CubeLUT.fresh (some lines)).2.domain_max.g
                (CubeLUT.load CubeLUT.fresh (some lines)).2.domain_min.g))) ∧
        (tables1D (CubeLUT.load CubeLUT.fresh (some lines)).2).b[i]? =
          some (F32.mul (F32.sub s.b (CubeLUT.load CubeLUT.fresh (some lines)).2.domain_min.b)
            (F32.div (F32.fin 1)
              (F32.sub (CubeLUT.load CubeLUT.fresh (some lines)).2.domain_max.b
                (CubeLUT.load CubeLUT.fresh (some lines)).2.domain_min.b)))) ∧
    (cacheFind self.cache path = none →
      (ColorLUT.load env self path lut).outcome = Outcome.ret true →
      (ColorLUT.load env self path lut).lut._1d =
        some (Effect.tableTransfer
          (some ⟨(tables1D (CubeLUT.load CubeLUT.fresh (some lines)).2).r,
            ((CubeLUT.load CubeLUT.fresh (some lines)).2.capacity * 4) % 4294967296⟩)
          (some ⟨(tables1D (CubeLUT.load CubeLUT.fresh (some lines)).2).g,
            ((CubeLUT.load CubeLUT.fresh (some lines)).2.capacity * 4) % 4294967296⟩)
          (some ⟨(tables1D (CubeLUT.load CubeLUT.fresh (some lines)).2).b,
            ((CubeLUT.load CubeLUT.fresh (some lines)).2.capacity * 4) % 4294967296⟩))) := by
  have hs := load_true_shape CubeLUT.fresh lines h
  have hcap : (CubeLUT.load CubeLUT.fresh (some lines)).2.capacity
      = (CubeLUT.load CubeLUT.fresh (some lines)).2.size := by
    rcases hs.2.2 with ⟨-, hc, -⟩ | ⟨h3, -⟩
    · exact hc
    · rw [h1] at h3
      exact absurd h3 (by decide)
  have hlen := tables1D_length (CubeLUT.load CubeLUT.fresh (some lines)).2
  rw [hcap] at hlen
  refine ⟨hlen.1, hlen.2.1, hlen.2.2, ?_, ?_⟩
  · intro i hi
    have hi2 : i < (CubeLUT.load CubeLUT.fresh (some lines)).2.data.length := by
      rw [hs.2.1, hcap]
      exact hi
    have hget : (CubeLUT.load CubeLUT.fresh (some lines)).2.data[i]? =
        some ((CubeLUT.load CubeLUT.fresh (some lines)).2.data.getD i
          ⟨F32.fin 0, F32.fin 0, F32.fin 0⟩) := by
      rw [List.getD_eq_getElem?_getD, List.getElem?_eq_getElem hi2]
      rfl
    have ht := tables1D_get (CubeLUT.load CubeLUT.fresh (some lines)).2 i (by rw [hcap]; exact hi)
    have hsc := load_fresh_scale lines h
    refine ⟨_, by rw [← hs.1]; exact hget, ?_⟩
    unfold normalized at ht
    rw [hsc] at ht
    exact ht
  · intro hmiss ho
    have hl := load_miss_true_lut env self path lut hmiss ho
    rw [hfs] at hl
    rcases hl.2 with ⟨-, hl1⟩ | ⟨h3, -⟩
    · rw [hl1]
    · rw [h1] at h3
      exact absurd h3 (by decide)

/-- C11, at a file: the table over the domain `0 .. 2` has vectors of length 2, the size it
declares. -/
theorem C11_tables_of_1D_cube_witness :
    (CubeLUT.load CubeLUT.fresh (some table1DExample)).1 = true ∧
      (CubeLUT.load CubeLUT.fresh (some table1DExample)).2.dimension = 1 ∧
      (tables1D (CubeLUT.load CubeLUT.fresh (some table1DExample)).2).r.length
        = (CubeLUT.load CubeLUT.fresh (some table1DExample)).2.size ∧
      (tables1D (CubeLUT.load CubeLUT.fresh (some table1DExample)).2).r
        = [F32.fin 0, F32.fin 1] ∧
      (tables1D (CubeLUT.load CubeLUT.fresh (some table1DExample)).2).b
        = [F32.fin 0, F32.fin (1 / 4)] :=
  ⟨by decide!, by decide!,
    (C11_tables_of_1D_cube envTable1D ColorLUT.initial "a.cube" LUT.empty table1DExample rfl
      (by decide!) (by decide!)).1,
    by decide!, by decide!⟩

/-- The buffer of `case 3` has one entry per sample. -/
theorem buffer3D_length (cube : CubeLUT) : (buffer3D cube).length = cube.capacity := by
  unfold buffer3D body3D
  rw [foldl_set_length (destIndex cube.size ((cube.size * cube.size) % 4294967296))
    (fun i => (⟨(normalized cube i).r, (normalized cube i).g, (normalized cube i).b, F32.fin 1⟩ :
      RGBA))]
  simp

/-- C12: for a successfully parsed 3D cube of size `n`, the map from file index to the
destination offset written by `case 3` of `ColorLUT::load` is a bijection on `[0, n³)`: it
stays below `n³`, is one-to-one, and every offset is the destination of exactly one file
index.  The buffer has `n³` entries and each of them holds a normalised sample with alpha
one. -/
theorem C12_relayout_is_bijection (self : CubeLUT) (lines : List Line)
    (h : (CubeLUT.load self (some lines)).1 = true)
    (h3 : (CubeLUT.load self (some lines)).2.dimension = 3) :
    (buffer3D (CubeLUT.load self (some lines)).2).length
      = (CubeLUT.load self (some lines)).2.size ^ 3 ∧
    (∀ i, i < (CubeLUT.load self (some lines)).2.size ^ 3 →
      destIndex (CubeLUT.load self (some lines)).2.size
        (((CubeLUT.load self (some lines)).2.size * (CubeLUT.load self (some lines)).2.size)
          % 4294967296) i < (CubeLUT.load self (some lines)).2.size ^ 3) ∧
    (∀ i j, i < (CubeLUT.load self (some lines)).2.size ^ 3 →
      j < (CubeLUT.load self (some lines)).2.size ^ 3 →
      destIndex (CubeLUT.load self (some lines)).2.size
        (((CubeLUT.load self (some lines)).2.size * (CubeLUT.load self (some lines)).2.size)
          % 4294967296) i =
      destIndex (CubeLUT.load self (some lines)).2.size
        (((CubeLUT.load self (some lines)).2.size * (CubeLUT.load self (some lines)).2.size)
          % 4294967296) j → i = j) ∧
    (∀ k, k < (CubeLUT.load self (some lines)).2.size ^ 3 →
      ∃! i, i < (CubeLUT.load self (some lines)).2.size ^ 3 ∧
        destIndex (CubeLUT.load self (some lines)).2.size
          (((CubeLUT.load self (some lines)).2.size * (CubeLUT.load self (some lines)).2.size)
            % 4294967296) i = k) ∧
    (∀ k, k < (CubeLUT.load self (some lines)).2.size ^ 3 →
      ∃ i, i < (CubeLUT.load self (some lines)).2.size ^ 3 ∧
        (buffer3D (CubeLUT.load self (some lines)).2)[k]? =
          some ⟨(normalized (CubeLUT.load self (some lines)).2 i).r,
            (normalized (CubeLUT.load self (some lines)).2 i).g,
            (normalized (CubeLUT.load self (some lines)).2 i).b, F32.fin 1⟩) := by
  have hs := load_true_shape self lines h
  rcases hs.2.2 with ⟨h1, -⟩ | ⟨-, hcap, h2, h256⟩
  · rw [h1] at h3
    exact absurd h3 (by decide)
  · have hn0 : 0 < (CubeLUT.load self (some lines)).2.size := by omega
    refine ⟨by rw [buffer3D_length, hcap], ?_, ?_, ?_, ?_⟩
    · intro i hi
      exact (destIndex_eq _ i hn0 h256 hi).2
    · intro i j hi hj hij
      exact destIndex_injective _ i j hn0 h256 hi hj hij
    · intro k hk
      refine ⟨destIndex (CubeLUT.load self (some lines)).2.size
        (((CubeLUT.load self (some lines)).2.size * (CubeLUT.load self (some lines)).2.size)
          % 4294967296) k, ⟨(destIndex_eq _ k hn0 h256 hk).2,
            destIndex_involutive _ k hn0 h256 hk⟩, ?_⟩
      rintro j ⟨hj, hjk⟩
      rw [← hjk, destIndex_involutive _ j hn0 h256 hj]
    · intro k hk
      refine ⟨_, (destIndex_eq _ k hn0 h256 hk).2, ?_⟩
      have hb := buffer3D_get _ h2 h256 hcap _ (destIndex_eq _ k hn0 h256 hk).2
      rw [destIndex_involutive _ k hn0 h256 hk] at hb
      exact hb

/-- C12, at a file: the buffer of the 3D example has `2³` entries. -/
theorem C12_relayout_is_bijection_witness :
    (CubeLUT.load CubeLUT.fresh (some cube3DExample)).1 = true ∧
      (CubeLUT.load CubeLUT.fresh (some cube3DExample)).2.dimension = 3 ∧
      (buffer3D (CubeLUT.load CubeLUT.fresh (some cube3DExample)).2).length
        = (CubeLUT.load CubeLUT.fresh (some cube3DExample)).2.size ^ 3 :=
  ⟨by decide!, by decide!,
    (C12_relayout_is_bijection CubeLUT.fresh cube3DExample (by decide!) (by decide!)).1⟩

/-! ### Lines that neither loop acts on -/

theorem firstPass_cons_nondirective (c : CubeLUT) (l : Line) (rest : List Line)
    (h : isSizeDirective l = false) : firstPass c (l :: rest) = firstPass c rest := by
  have := firstPass_skip [l] rest c (by intro m hm; rw [List.mem_singleton.1 hm]; exact h)
  exact this

/-- At a size directive the first loop ends, whatever follows. -/
theorem firstPass_cons_directive (c : CubeLUT) (l : Line) (r1 r2 : List Line)
    (h : isSizeDirective l = true) : firstPass c (l :: r1) = firstPass c (l :: r2) := by
  unfold isSizeDirective at h
  simp only [Bool.and_eq_true, Bool.not_eq_true', Bool.or_eq_true, decide_eq_true_eq] at h
  rw [firstPass, firstPass, h.1]
  simp only [Bool.false_eq_true, if_false]
  by_cases ht : (readToken { rest := l, fail := false }).1 = "LUT_1D_SIZE".toList
  · rw [if_pos ht, if_pos ht]
  · rw [if_neg ht, if_neg ht, if_pos (h.2.resolve_left ht), if_pos (h.2.resolve_left ht)]

theorem firstPass_append_congr (pre X Y : List Line) (c : CubeLUT)
    (h : firstPass c X = firstPass c Y) : firstPass c (pre ++ X) = firstPass c (pre ++ Y) := by
  induction pre with
  | nil => exact h
  | cons m ms ih =>
      by_cases hm : isSizeDirective m = true
      · exact firstPass_cons_directive c m _ _ hm
      · have hm2 : isSizeDirective m = false := by simpa using hm
        rw [List.cons_append, List.cons_append, firstPass_cons_nondirective c m _ hm2,
          firstPass_cons_nondirective c m _ hm2]
        exact ih

theorem secondPass_append (c : CubeLUT) (a b : List Line) :
    secondPass c (a ++ b) = secondPass (secondPass c a) b := by
  unfold secondPass
  rw [List.foldl_append]

/-- Removing a line on which the second loop does nothing does not change the second loop. -/
theorem secondPass_remove (c : CubeLUT) (pre post : List Line) (l : Line)
    (h : ∀ c', secondPassStep c' l = c') :
    secondPass c (pre ++ l :: post) = secondPass c (pre ++ post) := by
  rw [secondPass_append, secondPass_append]
  unfold secondPass
  rw [List.foldl_cons, h]

/-- Two files on which both loops agree load alike. -/
theorem load_congr (self : CubeLUT) (X Y : List Line)
    (h1 : ∀ c, firstPass c X = firstPass c Y) (h2 : ∀ c, secondPass c X = secondPass c Y) :
    CubeLUT.load self (some X) = CubeLUT.load self (some Y) := by
  unfold CubeLUT.load
  dsimp only
  rw [h1]
  cases firstPass { self with size := 0, capacity := 0, data := [] } Y with
  | rejected c => rfl
  | done c1 =>
      dsimp only
      rw [h2]

/-- The second loop does nothing at a size directive line: it sets no domain and pushes no
sample. -/
theorem directive_step (c : CubeLUT) (l : Line) (h : isSizeDirective l = true) :
    secondPassStep c l = c ∧ rowOfLine l = none := by
  unfold isSizeDirective at h
  simp only [Bool.and_eq_true, Bool.not_eq_true', Bool.or_eq_true, decide_eq_true_eq] at h
  have h1 : from_chars "LUT_1D_SIZE".toList = none := by decide!
  have h3 : from_chars "LUT_3D_SIZE".toList = none := by decide!
  unfold secondPassStep rowOfLine parseRow
  rw [h.1]
  simp only [Bool.false_eq_true, if_false]
  rcases h.2 with ht | ht
  · rw [ht, if_neg (by decide), if_neg (by decide), if_neg (by decide), if_neg (by decide), h1]
    exact ⟨rfl, rfl⟩
  · rw [ht, if_neg (by decide), if_neg (by decide), if_neg (by decide), if_neg (by decide), h3]
    exact ⟨rfl, rfl⟩

/-- The first token of a line that holds only white space is empty, and that of a line whose
first character after white space is `#` starts with `#`. -/
theorem ignorable_token (l : Line) (h : isIgnorable l = true) :
    (readToken { rest := l, fail := false }).1 = [] ∨
      ∃ t, (readToken { rest := l, fail := false }).1 = '#' :: t := by
  unfold isIgnorable at h
  unfold readToken
  simp only [Bool.false_eq_true, if_false]
  cases hs : skipws l with
  | nil => left; rfl
  | cons c cs =>
      rw [hs] at h
      simp only [beq_iff_eq] at h
      subst h
      right
      refine ⟨(takeToken cs).1, ?_⟩
      simp only [takeToken]
      rw [if_neg (by decide)]

theorem from_chars_nil : from_chars [] = none := by decide!

theorem takeMantissa_hash (t : List Char) : takeMantissa ('#' :: t) = none := by
  have hd : takeDigits ('#' :: t) = ([], '#' :: t) := by
    simp only [takeDigits]
    rw [if_neg (by decide)]
  unfold takeMantissa
  rw [hd]
  rfl

theorem startsWithCI_hash (w t : List Char) (h : w.head? ≠ some '#') (hw : w ≠ []) :
    startsWithCI w ('#' :: t) = false := by
  cases w with
  | nil => exact absurd rfl hw
  | cons a as =>
      have ha : ¬ ('#' = a) := by
        intro e
        rw [← e] at h
        exact h rfl
      have hl : lower '#' = '#' := by decide
      simp [startsWithCI, hl, ha]

theorem from_chars_hash (t : List Char) : from_chars ('#' :: t) = none := by
  have h1 : startsWithCI "infinity".toList ('#' :: t) = false :=
    startsWithCI_hash _ t (by decide) (by decide)
  have h2 : startsWithCI "inf".toList ('#' :: t) = false :=
    startsWithCI_hash _ t (by decide) (by decide)
  have h3 : startsWithCI "nan".toList ('#' :: t) = false :=
    startsWithCI_hash _ t (by decide) (by decide)
  unfold from_chars
  split
  · rename_i cs heq
    exact absurd (List.cons.inj heq).1 (by decide)
  · dsimp only
    rw [h1, h2, h3, takeMantissa_hash]
    rfl

/-- Neither loop acts on a blank line or a comment line, indented or not. -/
theorem ignorable_inert (l : Line) (h : isIgnorable l = true) :
    isSizeDirective l = false ∧ ∀ c, secondPassStep c l = c := by
  by_cases hs : skipLine l = true
  · refine ⟨by simp [isSizeDirective, hs], ?_⟩
    intro c
    unfold secondPassStep
    rw [if_pos hs]
  · have hs2 : skipLine l = false := by simpa using hs
    rcases ignorable_token l h with ht | ⟨t, ht⟩
    · refine ⟨?_, ?_⟩
      · unfold isSizeDirective
        rw [ht, decide_eq_false (by decide), decide_eq_false (by decide)]
        simp
      · intro c
        unfold secondPassStep parseRow
        rw [hs2]
        simp only [Bool.false_eq_true, if_false]
        rw [ht, if_neg (by decide), if_neg (by decide), from_chars_nil]
    · have hne : ∀ w : List Char, w.head? ≠ some '#' → ¬ ('#' :: t = w) := by
        intro w hw e
        rw [← e] at hw
        exact hw rfl
      refine ⟨?_, ?_⟩
      · unfold isSizeDirective
        rw [ht, decide_eq_false (hne _ (by decide)), decide_eq_false (hne _ (by decide))]
        simp
      · intro c
        unfold secondPassStep parseRow
        rw [hs2]
        simp only [Bool.false_eq_true, if_false]
        rw [ht, if_neg (hne _ (by decide)), if_neg (hne _ (by decide)), from_chars_hash]

/-- What a successful load took from the first size directive of the file. -/
theorem load_at_first_directive (self : CubeLUT) (pre post : List Line) (l : Line)
    (hpre : ∀ m ∈ pre, isSizeDirective m = false) (hl : isSizeDirective l = true)
    (h : (CubeLUT.load self (some (pre ++ l :: post))).1 = true) :
    (CubeLUT.load self (some (pre ++ l :: post))).2.size = directiveSize l ∧
      (((readToken { rest := l, fail := false }).1 = "LUT_1D_SIZE".toList ∧
          (CubeLUT.load self (some (pre ++ l :: post))).2.dimension = 1 ∧
          (CubeLUT.load self (some (pre ++ l :: post))).2.capacity = directiveSize l) ∨
        ((readToken { rest := l, fail := false }).1 = "LUT_3D_SIZE".toList ∧
          (CubeLUT.load self (some (pre ++ l :: post))).2.dimension = 3 ∧
          (CubeLUT.load self (some (pre ++ l :: post))).2.capacity = directiveSize l ^ 3)) := by
  obtain ⟨lines', c1, hf, hp, -, -, -, -, -, heq⟩ := load_true self _ h
  cases hf
  rw [firstPass_skip pre (l :: post) _ hpre] at hp
  have hsz := secondPass_size (pre ++ l :: post) c1
  rw [heq]
  dsimp only
  rw [hsz.1, hsz.2.1, hsz.2.2.1]
  rcases firstPass_done (l :: post) _ c1 hp with ⟨-, hno⟩ | ⟨pre', l', post', e1, e2, -, hd⟩
  · have := hno l (List.mem_cons_self l post)
    rw [this] at hl
    exact absurd hl (by simp)
  · have hll : l' = l := by
      cases pre' with
      | nil =>
          rw [List.nil_append] at e1
          exact (List.cons.inj e1).1.symm
      | cons p ps =>
          rw [List.cons_append] at e1
          have hp1 : l = p := (List.cons.inj e1).1
          have := e2 p (List.mem_cons_self p ps)
          rw [← hp1, hl] at this
          exact absurd this (by simp)
    subst hll
    rcases hd with ⟨ht, hc, -, -⟩ | ⟨ht, hc, -, h256⟩
    · have hs : c1.size = directiveSize l' := by rw [hc]; rfl
      have hcap : c1.capacity = directiveSize l' := by rw [hc]; rfl
      exact ⟨hs, Or.inl ⟨ht, by rw [hc], hcap⟩⟩
    · have hs : c1.size = directiveSize l' := by rw [hc]; rfl
      have hcap : c1.capacity =
          (directiveSize l' * directiveSize l' * directiveSize l') % 4294967296 := by
        rw [hc]; rfl
      refine ⟨hs, Or.inr ⟨ht, by rw [hc], ?_⟩⟩
      rw [hcap, Nat.mod_eq_of_lt (cube_lt _ (hs ▸ h256))]
      ring

/-- C14: in a file with several size directives `CubeLUT::load` takes dimension, size and
capacity from the first one; a later `LUT_1D_SIZE` / `LUT_3D_SIZE` line changes nothing (the
file loads exactly as it does without that line), and the second pass neither acts on a
size directive line nor takes a sample from it. -/
theorem C14_first_directive_wins :
    (∀ (self : CubeLUT) (pre post : List Line) (l : Line),
      (∀ m ∈ pre, isSizeDirective m = false) → isSizeDirective l = true →
      (CubeLUT.load self (some (pre ++ l :: post))).1 = true →
      (CubeLUT.load self (some (pre ++ l :: post))).2.size = directiveSize l ∧
      (((readToken { rest := l, fail := false }).1 = "LUT_1D_SIZE".toList ∧
          (CubeLUT.load self (some (pre ++ l :: post))).2.dimension = 1 ∧
          (CubeLUT.load self (some (pre ++ l :: post))).2.capacity = directiveSize l) ∨
        ((readToken { rest := l, fail := false }).1 = "LUT_3D_SIZE".toList ∧
          (CubeLUT.load self (some (pre ++ l :: post))).2.dimension = 3 ∧
          (CubeLUT.load self (some (pre ++ l :: post))).2.capacity = directiveSize l ^ 3))) ∧
    (∀ (self : CubeLUT) (pre mid post : List Line) (l l2 : Line),
      (∀ m ∈ pre, isSizeDirective m = false) → isSizeDirective l = true →
      isSizeDirective l2 = true →
      CubeLUT.load self (some (pre ++ l :: (mid ++ l2 :: post))) =
        CubeLUT.load self (some (pre ++ l :: (mid ++ post)))) ∧
    (∀ (c : CubeLUT) (l : Line), isSizeDirective l = true →
      secondPassStep c l = c ∧ rowOfLine l = none) ∧
    ((CubeLUT.load CubeLUT.fresh (some bothDirectives)).1 = true ∧
      (CubeLUT.load CubeLUT.fresh (some bothDirectives)).2.dimension = 3 ∧
      (CubeLUT.load CubeLUT.fresh (some bothDirectives)).2.size = 2 ∧
      (CubeLUT.load CubeLUT.fresh (some bothDirectives)).2.capacity = 8 ∧
      (CubeLUT.load CubeLUT.fresh (some bothDirectives)).2.data.length = 8) := by
  refine ⟨load_at_first_directive, ?_, directive_step, by decide!⟩
  intro self pre mid post l l2 _ hl hl2
  apply load_congr
  · intro c
    exact firstPass_append_congr pre _ _ c (firstPass_cons_directive c l _ _ hl)
  · intro c
    have e1 : pre ++ l :: (mid ++ l2 :: post) = (pre ++ l :: mid) ++ l2 :: post := by simp
    have e2 : pre ++ l :: (mid ++ post) = (pre ++ l :: mid) ++ post := by simp
    rw [e1, e2]
    exact secondPass_remove c _ _ l2 (fun c' => (directive_step c' l2 hl2).1)

/-- C14, at a file: with `LUT_3D_SIZE 2` first and `LUT_1D_SIZE 4` second the loaded size is
that of the first line, and the file loads as it does without the second line. -/
theorem C14_first_directive_wins_witness :
    (CubeLUT.load CubeLUT.fresh
        (some ([] ++ "LUT_3D_SIZE 2".toList :: (bothDirectives.drop 1)))).2.size
      = directiveSize "LUT_3D_SIZE 2".toList ∧
    CubeLUT.load CubeLUT.fresh
        (some ([] ++ "LUT_3D_SIZE 2".toList ::
          ([] ++ "LUT_1D_SIZE 4".toList :: bothDirectives.drop 2))) =
      CubeLUT.load CubeLUT.fresh
        (some ([] ++ "LUT_3D_SIZE 2".toList :: ([] ++ bothDirectives.drop 2))) :=
  ⟨(C14_first_directive_wins.1 CubeLUT.fresh [] (bothDirectives.drop 1) "LUT_3D_SIZE 2".toList
      (by simp) (by decide!) (by decide!)).1,
    C14_first_directive_wins.2.1 CubeLUT.fresh [] [] (bothDirectives.drop 2)
      "LUT_3D_SIZE 2".toList "LUT_1D_SIZE 4".toList (by simp) (by decide!) (by decide!)⟩

/-- C15: a line whose first character after white space is `#` (at the start of the line or
indented by spaces or tabs) and a line of white space only are ignored by both passes of
`CubeLUT::load`: such a line is no size directive, the second pass leaves the object as it is
and takes no sample from it, and a file loads exactly as it does without the line. -/
theorem C15_comment_and_blank_lines_ignored :
    (∀ (l : Line), isIgnorable l = true →
      isSizeDirective l = false ∧ rowOfLine l = none ∧ ∀ c, secondPassStep c l = c) ∧
    (∀ (self : CubeLUT) (pre post : List Line) (l : Line), isIgnorable l = true →
      CubeLUT.load self (some (pre ++ l :: post)) = CubeLUT.load self (some (pre ++ post))) ∧
    (isIgnorable "# LUT_3D_SIZE 4".toList = true ∧
      isIgnorable "  \t# DOMAIN_MAX 2 2 2".toList = true ∧
      isIgnorable " \t ".toList = true ∧ isIgnorable [] = true ∧
      isIgnorable "0 0 0 # c".toList = false) := by
  refine ⟨?_, ?_, by decide⟩
  · intro l h
    have hi := ignorable_inert l h
    refine ⟨hi.1, ?_, hi.2⟩
    have hd := secondPassStep_data CubeLUT.fresh l
    rw [hi.2] at hd
    cases hr : rowOfLine l with
    | none => rfl
    | some s =>
        rw [hr] at hd
        simp [CubeLUT.fresh] at hd
  · intro self pre post l h
    have hi := ignorable_inert l h
    apply load_congr
    · intro c
      exact firstPass_append_congr pre _ _ c (firstPass_cons_nondirective c l post hi.1)
    · intro c
      exact secondPass_remove c pre post l hi.2

/-- C15, at a file: an indented comment line that looks like a directive, put in front of the
3D example, is ignored. -/
theorem C15_comment_and_blank_lines_ignored_witness :
    isIgnorable " \t# LUT_1D_SIZE 4".toList = true ∧
      CubeLUT.load CubeLUT.fresh (some ([] ++ " \t# LUT_1D_SIZE 4".toList :: cube3DExample)) =
        CubeLUT.load CubeLUT.fresh (some ([] ++ cube3DExample)) :=
  ⟨by decide,
    C15_comment_and_blank_lines_ignored.2.1 CubeLUT.fresh [] cube3DExample
      " \t# LUT_1D_SIZE 4".toList (by decide)⟩

/-! ### The dimension of cached and returned `LUT`s -/

theorem cacheFind_mem (cache : List (String × LUT)) (path : String) (v : LUT)
    (h : cacheFind cache path = some v) : (path, v) ∈ cache := by
  induction cache with
  | nil => simp [cacheFind] at h
  | cons kv rest ih =>
      obtain ⟨k, w⟩ := kv
      unfold cacheFind at h
      by_cases hk : k = path
      · rw [if_pos hk] at h
        simp only [Option.some.injEq] at h
        rw [hk, h]
        exact List.mem_cons_self _ _
      · rw [if_neg hk] at h
        exact List.mem_cons_of_mem _ (ih h)

theorem cacheErase_subset (cache : List (String × LUT)) (path : String) (kv : String × LUT)
    (h : kv ∈ cacheErase cache path) : kv ∈ cache := by
  induction cache with
  | nil => simp [cacheErase] at h
  | cons e rest ih =>
      obtain ⟨k, w⟩ := e
      unfold cacheErase at h
      by_cases hk : k = path
      · rw [if_pos hk] at h
        exact List.mem_cons_of_mem _ (ih h)
      · rw [if_neg hk] at h
        rcases List.mem_cons.1 h with rfl | h2
        · exact List.mem_cons_self _ _
        · exact List.mem_cons_of_mem _ (ih h2)

theorem cacheOk_iff (cache : List (String × LUT)) :
    cacheOk cache = true ↔ ∀ kv ∈ cache, lutOk kv.2 = true := by
  unfold cacheOk
  rw [List.all_eq_true]

/-- A call that returns true returns a `LUT` of dimension 1 with `_1d` set or of dimension 3
with `_3d` set, when the cache holds only such `LUT`s. -/
theorem load_true_lutOk (env : Env) (self : ColorLUT) (path : String) (lut : LUT)
    (hc : cacheOk self.cache = true)
    (h : (ColorLUT.load env self path lut).outcome = Outcome.ret true) :
    lutOk (ColorLUT.load env self path lut).lut = true := by
  cases hf : cacheFind self.cache path with
  | some hit =>
      rw [load_hit env self path lut hit hf]
      exact (cacheOk_iff _).1 hc (path, hit) (cacheFind_mem _ _ _ hf)
  | none =>
      rcases (load_miss_true_lut env self path lut hf h).2 with ⟨-, hl⟩ | ⟨-, hl⟩
      · rw [hl]; rfl
      · rw [hl]; rfl

theorem load_cacheOk (env : Env) (self : ColorLUT) (path : String) (lut : LUT)
    (hc : cacheOk self.cache = true) : cacheOk (ColorLUT.load env self path lut).self.cache = true := by
  cases hf : cacheFind self.cache path with
  | some hit =>
      rw [load_hit env self path lut hit hf]
      exact hc
  | none =>
      obtain ⟨calls, -, hT, hF⟩ := load_miss env self path lut hf
      by_cases ho : (ColorLUT.load env self path lut).outcome = Outcome.ret true
      · rw [(hT ho).1, cacheOk_iff]
        intro kv hkv
        rcases List.mem_append.1 hkv with h1 | h1
        · exact (cacheOk_iff _).1 hc kv h1
        · rw [List.mem_singleton.1 h1]
          exact load_true_lutOk env self path lut hc ho
      · rw [hF ho]
        exact hc

theorem finishCreate_effect (env : Env) (s : ColorLUT) (e : Effect) (mix : F32) (bmp : Bitmap) :
    (finishCreate env s e mix bmp).self.cache = s.cache ∧
      (finishCreate env s e mix bmp).outcome ≠ CreateOutcome.ret false ∧
      (finishCreate env s e mix bmp).outcome ≠ CreateOutcome.nullDeref := by
  unfold finishCreate ColorLUT.call
  dsimp only
  split_ifs <;> exact ⟨rfl, by simp, by simp⟩

theorem create_effect_cache (env : Env) (self : ColorLUT) (path : String) (mix : F32)
    (bmp : Bitmap) :
    (ColorLUT.create_effect env self path mix bmp).self.cache =
      (ColorLUT.load env self path LUT.empty).self.cache := by
  unfold ColorLUT.create_effect
  dsimp only
  split
  · rfl
  · rfl
  · split_ifs
    · split
      · rfl
      · exact (finishCreate_effect env _ _ mix bmp).1
    · split
      · rfl
      · exact (finishCreate_effect env _ _ mix bmp).1
    · rfl

/-- Every cache a `ColorLUT` can come to hold has only `LUT`s of dimension 1 with `_1d` set or
of dimension 3 with `_3d` set. -/
theorem reachable_cacheOk (env : Env) (self : ColorLUT) (h : Reachable env self) :
    cacheOk self.cache = true := by
  induction h with
  | initial => rfl
  | load s path lut _ ih => exact load_cacheOk env s path lut ih
  | create_effect s path mix bmp _ ih =>
      rw [create_effect_cache]
      exact load_cacheOk env s path LUT.empty ih
  | reload s path _ ih =>
      rw [cacheOk_iff] at ih ⊢
      intro kv hkv
      exact ih kv (cacheErase_subset _ _ _ hkv)
  | reloadAll s _ _ => rfl

/-- On a miss whose parse succeeds, `ColorLUT::load` does not end in `return false`: the
branch `default:` is not taken. -/
theorem load_parsed_not_false (env : Env) (self : ColorLUT) (path : String) (lut : LUT)
    (hmiss : cacheFind self.cache path = none)
    (hp : (CubeLUT.load CubeLUT.fresh (env.fs path)).1 = true) :
    (ColorLUT.load env self path lut).outcome ≠ Outcome.ret false := by
  have hdim : (CubeLUT.load CubeLUT.fresh (env.fs path)).2.dimension = 1 ∨
      (CubeLUT.load CubeLUT.fresh (env.fs path)).2.dimension = 3 := by
    obtain ⟨lines, c1, hf, -⟩ := load_true CubeLUT.fresh (env.fs path) hp
    rw [hf] at hp ⊢
    rcases (load_true_shape CubeLUT.fresh lines hp).2.2 with ⟨h1, -⟩ | ⟨h3, -⟩
    · exact Or.inl h1
    · exact Or.inr h3
  unfold ColorLUT.load
  rw [hmiss]
  dsimp only
  rw [hp]
  simp only [Bool.not_true, Bool.false_eq_true, if_false]
  rcases hdim with h1 | h3
  · rw [if_pos h1, (finishLoad_outcome path _).1]
    exact (load1D_effect env _ lut _).2.1
  · rw [if_neg (by rw [h3]; decide), if_pos h3, (finishLoad_outcome path _).1]
    exact (load3D_effect env _ lut _).2.1

/-- C16: every successful `CubeLUT::load` leaves dimension 1 or 3; a `ColorLUT::load` whose
parse succeeded does not end in the `return false` of `default:`; every cache reachable from
the empty one holds only `LUT`s of dimension 1 (with `_1d` set) or 3 (with `_3d` set), and so
does every `LUT` a successful `ColorLUT::load` returns; `ColorLUT::create_effect` returns
false only when `load` did, which happens only when the parse failed, and it never goes
through a null `ComPtr`. -/
theorem C16_default_branches_unreachable :
    (∀ (self : CubeLUT) (file : Option (List Line)), (CubeLUT.load self file).1 = true →
      (CubeLUT.load self file).2.dimension = 1 ∨ (CubeLUT.load self file).2.dimension = 3) ∧
    (∀ (env : Env) (self : ColorLUT) (path : String) (lut : LUT),
      cacheFind self.cache path = none →
      (CubeLUT.load CubeLUT.fresh (env.fs path)).1 = true →
      (ColorLUT.load env self path lut).outcome ≠ Outcome.ret false) ∧
    (∀ (env : Env) (self : ColorLUT), Reachable env self → cacheOk self.cache = true) ∧
    (∀ (env : Env) (self : ColorLUT) (path : String) (lut : LUT), Reachable env self →
      (ColorLUT.load env self path lut).outcome = Outcome.ret true →
      lutOk (ColorLUT.load env self path lut).lut = true ∧
      ((ColorLUT.load env self path lut).lut.dimension = 1 ∨
        (ColorLUT.load env self path lut).lut.dimension = 3)) ∧
    (∀ (env : Env) (self : ColorLUT) (path : String) (mix : F32) (bmp : Bitmap),
      Reachable env self →
      (ColorLUT.create_effect env self path mix bmp).outcome ≠ CreateOutcome.nullDeref ∧
      ((ColorLUT.create_effect env self path mix bmp).outcome = CreateOutcome.ret false →
        (ColorLUT.load env self path LUT.empty).outcome = Outcome.ret false ∧
        (CubeLUT.load CubeLUT.fresh (env.fs path)).1 = false)) := by
  have hdimOf : ∀ l : LUT, lutOk l = true → l.dimension = 1 ∨ l.dimension = 3 := by
    intro l hl
    unfold lutOk at hl
    simp only [Bool.or_eq_true, Bool.and_eq_true, decide_eq_true_eq] at hl
    rcases hl with ⟨h1, -⟩ | ⟨h3, -⟩
    · exact Or.inl h1
    · exact Or.inr h3
  refine ⟨?_, load_parsed_not_false, reachable_cacheOk, ?_, ?_⟩
  · intro self file h
    obtain ⟨lines, c1, hf, -⟩ := load_true self file h
    rw [hf] at h ⊢
    rcases (load_true_shape self lines h).2.2 with ⟨h1, -⟩ | ⟨h3, -⟩
    · exact Or.inl h1
    · exact Or.inr h3
  · intro env self path lut hr ho
    have hok := load_true_lutOk env self path lut (reachable_cacheOk env self hr) ho
    exact ⟨hok, hdimOf _ hok⟩
  · intro env self path mix bmp hr
    have hfalse : (ColorLUT.load env self path LUT.empty).outcome = Outcome.ret false →
        (CubeLUT.load CubeLUT.fresh (env.fs path)).1 = false := by
      intro ho
      cases hf : cacheFind self.cache path with
      | some hit =>
          rw [load_hit env self path LUT.empty hit hf] at ho
          exact absurd ho (by simp)
      | none =>
          cases hp : (CubeLUT.load CubeLUT.fresh (env.fs path)).1 with
          | false => rfl
          | true => exact absurd ho (load_parsed_not_false env self path LUT.empty hf hp)
    unfold ColorLUT.create_effect
    dsimp only
    split
    · exact ⟨by simp, fun h => absurd h (by simp)⟩
    · rename_i ho
      exact ⟨by simp, fun _ => ⟨ho, hfalse ho⟩⟩
    · rename_i ho
      have hok := load_true_lutOk env self path LUT.empty (reachable_cacheOk env self hr) ho
      unfold lutOk at hok
      simp only [Bool.or_eq_true, Bool.and_eq_true, decide_eq_true_eq] at hok
      rcases hok with ⟨h1, hs⟩ | ⟨h3, hs⟩
      · rw [if_pos h1]
        obtain ⟨e, he⟩ := Option.isSome_iff_exists.1 hs
        rw [he]
        dsimp only
        have hfc := finishCreate_effect env (ColorLUT.load env self path LUT.empty).self e mix bmp
        exact ⟨hfc.2.2, fun h => absurd h hfc.2.1⟩
      · rw [if_neg (by rw [h3]; decide), if_pos h3]
        obtain ⟨e, he⟩ := Option.isSome_iff_exists.1 hs
        rw [he]
        dsimp only
        have hfc := finishCreate_effect env (ColorLUT.load env self path LUT.empty).self e mix bmp
        exact ⟨hfc.2.2, fun h => absurd h hfc.2.1⟩

/-- C16, at a disk with the 3D example: the parse succeeds with dimension 3, the `LUT` the
first `ColorLUT::load` returns has dimension 3, and `create_effect` returns true. -/
theorem C16_default_branches_unreachable_witness :
    (CubeLUT.load CubeLUT.fresh (some cube3DExample)).1 = true ∧
      ((CubeLUT.load CubeLUT.fresh (some cube3DExample)).2.dimension = 1 ∨
        (CubeLUT.load CubeLUT.fresh (some cube3DExample)).2.dimension = 3) ∧
      (ColorLUT.load envCube3D ColorLUT.initial "a.cube" LUT.empty).outcome = Outcome.ret true ∧
      lutOk (ColorLUT.load envCube3D ColorLUT.initial "a.cube" LUT.empty).lut = true ∧
      (ColorLUT.create_effect envCube3D ColorLUT.initial "a.cube" (F32.fin (1 / 2)) 7).outcome
        = CreateOutcome.ret true :=
  ⟨by decide!,
    C16_default_branches_unreachable.1 CubeLUT.fresh (some cube3DExample) (by decide!),
    by decide!,
    (C16_default_branches_unreachable.2.2.2.1 envCube3D ColorLUT.initial "a.cube" LUT.empty
      Reachable.initial (by decide!)).1,
    by decide!⟩

/-- C17: for every `n` with `2 ≤ n ≤ 256` and every `i < n³`, the destination index
`x + y * n + z * n²` computed from `z = i % n`, `y = (i / n) % n`, `x = i / n²` is below `n³`;
after a successful parse of a 3D cube every index `i` of the loop is inside the parsed samples
and its destination is inside the buffer, both of which have `n³` entries. -/
theorem C17_relayout_indices_in_bounds :
    (∀ n i : Nat, 2 ≤ n → n ≤ 256 → i < n ^ 3 →
      destIndex n ((n * n) % 4294967296) i = i / (n * n) + (i / n % n) * n + (i % n) * (n * n) ∧
      destIndex n ((n * n) % 4294967296) i < n ^ 3) ∧
    (∀ (self : CubeLUT) (lines : List Line), (CubeLUT.load self (some lines)).1 = true →
      (CubeLUT.load self (some lines)).2.dimension = 3 →
      2 ≤ (CubeLUT.load self (some lines)).2.size ∧
      (CubeLUT.load self (some lines)).2.size ≤ 256 ∧
      (CubeLUT.load self (some lines)).2.capacity = (CubeLUT.load self (some lines)).2.size ^ 3 ∧
      (CubeLUT.load self (some lines)).2.data.length
        = (CubeLUT.load self (some lines)).2.size ^ 3 ∧
      (buffer3D (CubeLUT.load self (some lines)).2).length
        = (CubeLUT.load self (some lines)).2.size ^ 3 ∧
      ∀ i, i < (CubeLUT.load self (some lines)).2.capacity →
        i < (CubeLUT.load self (some lines)).2.data.length ∧
        destIndex (CubeLUT.load self (some lines)).2.size
          (((CubeLUT.load self (some lines)).2.size * (CubeLUT.load self (some lines)).2.size)
            % 4294967296) i < (buffer3D (CubeLUT.load self (some lines)).2).length) := by
  constructor
  · intro n i h2 h256 hi
    exact destIndex_eq n i (by omega) h256 hi
  · intro self lines h h3
    have hs := load_true_shape self lines h
    rcases hs.2.2 with ⟨h1, -⟩ | ⟨-, hcap, h2, h256⟩
    · rw [h1] at h3
      exact absurd h3 (by decide)
    · refine ⟨h2, h256, hcap, by rw [hs.2.1, hcap], by rw [buffer3D_length, hcap], ?_⟩
      intro i hi
      refine ⟨by rw [hs.2.1]; exact hi, ?_⟩
      rw [buffer3D_length, hcap]
      exact (destIndex_eq _ i (by omega) h256 (by rw [← hcap]; exact hi)).2

/-- C17, at numbers and at a file: for `n = 256` the last index `256³ - 1` has its destination
below `256³`, and the 3D example has as many samples as buffer entries. -/
theorem C17_relayout_indices_in_bounds_witness :
    destIndex 256 ((256 * 256) % 4294967296) 16777215 < 256 ^ 3 ∧
      (CubeLUT.load CubeLUT.fresh (some cube3DExample)).2.data.length
        = (CubeLUT.load CubeLUT.fresh (some cube3DExample)).2.size ^ 3 :=
  ⟨(C17_relayout_indices_in_bounds.1 256 16777215 (by decide) (by decide) (by decide)).2,
    (C17_relayout_indices_in_bounds.2 CubeLUT.fresh cube3DExample (by decide!)
      (by decide!)).2.2.2.1⟩

/-- C18: for every size `CubeLUT::load` accepts, the `UINT32` computations of the code equal
their mathematical values: `capacity = size * size * size` and `h = size * size` for a 3D cube,
the byte size `capacity * 4` of a 1D table, the byte size `capacity * 16` and the strides
`size * 16` and `size * size * 16` of the 3D buffer are all below `2 ^ 32`, so the reductions
modulo `2 ^ 32` change nothing; and every loop index below `capacity` is below `2 ^ 31`. -/
theorem C18_no_uint32_wrap (self : CubeLUT) (lines : List Line)
    (h : (CubeLUT.load self (some lines)).1 = true) :
    ((CubeLUT.load self (some lines)).2.dimension = 1 →
      (CubeLUT.load self (some lines)).2.capacity = (CubeLUT.load self (some lines)).2.size ∧
      (CubeLUT.load self (some lines)).2.capacity * 4 < 2 ^ 32 ∧
      ((CubeLUT.load self (some lines)).2.capacity * 4) % 4294967296
        = (CubeLUT.load self (some lines)).2.capacity * 4) ∧
    ((CubeLUT.load self (some lines)).2.dimension = 3 →
      (CubeLUT.load self (some lines)).2.size * (CubeLUT.load self (some lines)).2.size
          * (CubeLUT.load self (some lines)).2.size < 2 ^ 32 ∧
      (CubeLUT.load self (some lines)).2.capacity =
        (CubeLUT.load self (some lines)).2.size * (CubeLUT.load self (some lines)).2.size
          * (CubeLUT.load self (some lines)).2.size ∧
      ((CubeLUT.load self (some lines)).2.size * (CubeLUT.load self (some lines)).2.size)
          % 4294967296 =
        (CubeLUT.load self (some lines)).2.size * (CubeLUT.load self (some lines)).2.size ∧
      (CubeLUT.load self (some lines)).2.capacity * 16 < 2 ^ 32 ∧
      (CubeLUT.load self (some lines)).2.size * 16 < 2 ^ 32 ∧
      (CubeLUT.load self (some lines)).2.size * (CubeLUT.load self (some lines)).2.size * 16
        < 2 ^ 32 ∧
      lookupTableOf (CubeLUT.load self (some lines)).2 =
        { extents := [(CubeLUT.load self (some lines)).2.size,
            (CubeLUT.load self (some lines)).2.size, (CubeLUT.load self (some lines)).2.size]
          data := buffer3D (CubeLUT.load self (some lines)).2
          dataSize := (CubeLUT.load self (some lines)).2.capacity * 16
          strides := [(CubeLUT.load self (some lines)).2.size * 16,
            (CubeLUT.load self (some lines)).2.size * (CubeLUT.load self (some lines)).2.size
              * 16] }) ∧
    (∀ i, i < (CubeLUT.load self (some lines)).2.capacity → i < 2 ^ 31) := by
  have hs := load_true_shape self lines h
  rcases hs.2.2 with ⟨h1, hcap, -, hle⟩ | ⟨h3, hcap, -, hle⟩
  · refine ⟨?_, ?_, ?_⟩
    · intro _
      refine ⟨hcap, by rw [hcap]; omega, ?_⟩
      exact Nat.mod_eq_of_lt (by rw [hcap]; omega)
    · intro h3
      rw [h1] at h3
      exact absurd h3 (by decide)
    · intro i hi
      rw [hcap] at hi
      omega
  · have hsq : (CubeLUT.load self (some lines)).2.size * (CubeLUT.load self (some lines)).2.size
        ≤ 256 * 256 := Nat.mul_le_mul hle hle
    have hcu : (CubeLUT.load self (some lines)).2.size * (CubeLUT.load self (some lines)).2.size
        * (CubeLUT.load self (some lines)).2.size ≤ 256 * 256 * 256 := Nat.mul_le_mul hsq hle
    have hcap2 : (CubeLUT.load self (some lines)).2.capacity =
        (CubeLUT.load self (some lines)).2.size * (CubeLUT.load self (some lines)).2.size
          * (CubeLUT.load self (some lines)).2.size := by
      rw [hcap]; ring
    refine ⟨?_, ?_, ?_⟩
    · intro h1
      rw [h3] at h1
      exact absurd h1 (by decide)
    · intro _
      have hmsq : ((CubeLUT.load self (some lines)).2.size
          * (CubeLUT.load self (some lines)).2.size) % 4294967296 =
          (CubeLUT.load self (some lines)).2.size * (CubeLUT.load self (some lines)).2.size :=
        Nat.mod_eq_of_lt (by omega)
      refine ⟨by omega, hcap2, hmsq, by omega, by omega, by omega, ?_⟩
      unfold lookupTableOf
      rw [hmsq, Nat.mod_eq_of_lt (by omega : (CubeLUT.load self (some lines)).2.capacity * 16
          < 4294967296),
        Nat.mod_eq_of_lt (by omega : (CubeLUT.load self (some lines)).2.size * 16 < 4294967296),
        Nat.mod_eq_of_lt (by omega : (CubeLUT.load self (some lines)).2.size
          * (CubeLUT.load self (some lines)).2.size * 16 < 4294967296)]
    · intro i hi
      omega

/-- C18, at a file: the 3D example loads, and every index below its capacity is below
`2 ^ 31`. -/
theorem C18_no_uint32_wrap_witness :
    (CubeLUT.load CubeLUT.fresh (some cube3DExample)).1 = true ∧
      ∀ i, i < (CubeLUT.load CubeLUT.fresh (some cube3DExample)).2.capacity → i < 2 ^ 31 :=
  ⟨by decide!, (C18_no_uint32_wrap CubeLUT.fresh cube3DExample (by decide!)).2.2⟩

/-- C19 fails on the code: `CubeLUT::load` resets `size`, `capacity` and `data` but neither the
domain nor the scale.  Loading the table over the domain `0 .. 2` twice into the same object
gives scale `1/4` instead of the `1/2` of a fresh object, and loading the table without
domain lines after it keeps `domain_max = 2` and gives scale `1/4`, where a fresh object has
`domain_max = 1` and scale `1`. -/
theorem C19_prior_state_leaks :
    (CubeLUT.load CubeLUT.fresh (some table1DExample)).1 = true ∧
      (CubeLUT.load CubeLUT.fresh (some table1DExample)).2.scale
        = ⟨F32.fin (1 / 2), F32.fin (1 / 2), F32.fin (1 / 2)⟩ ∧
      (CubeLUT.load (CubeLUT.load CubeLUT.fresh (some table1DExample)).2
        (some table1DExample)).1 = true ∧
      (CubeLUT.load (CubeLUT.load CubeLUT.fresh (some table1DExample)).2
        (some table1DExample)).2.scale
        = ⟨F32.fin (1 / 4), F32.fin (1 / 4), F32.fin (1 / 4)⟩ ∧
      (CubeLUT.load CubeLUT.fresh (some table1DPlain)).1 = true ∧
      (CubeLUT.load CubeLUT.fresh (some table1DPlain)).2.domain_max
        = ⟨F32.fin 1, F32.fin 1, F32.fin 1⟩ ∧
      (CubeLUT.load CubeLUT.fresh (some table1DPlain)).2.scale
        = ⟨F32.fin 1, F32.fin 1, F32.fin 1⟩ ∧
      (CubeLUT.load (CubeLUT.load CubeLUT.fresh (some table1DExample)).2
        (some table1DPlain)).1 = true ∧
      (CubeLUT.load (CubeLUT.load CubeLUT.fresh (some table1DExample)).2
        (some table1DPlain)).2.domain_max
        = ⟨F32.fin 2, F32.fin 2, F32.fin 2⟩ ∧
      (CubeLUT.load (CubeLUT.load CubeLUT.fresh (some table1DExample)).2
        (some table1DPlain)).2.scale
        = ⟨F32.fin (1 / 4), F32.fin (1 / 4), F32.fin (1 / 4)⟩ := by
  decide!

end ColorLUTModel
